import Mathlib

/-!
Verification development for the WhatsApp/Snapchat image-metadata updater.

The repository has two near-duplicate Python pipelines:
  * `WA_Snap_ExifUpdater.py`  (interactive; WhatsApp and Snapchat modes, images and videos),
    embedded below at the root of namespace `ImgMeta`;
  * `WhatsAppExifUpdater.py`  (CLI-argument driven; WhatsApp images only),
    embedded in namespace `ImgMeta.WAU`.

Pure functions of the source are translated as Lean functions.  Interactions
with the filesystem and with the external collaborators (PIL/piexif, ffmpeg,
md5) are made explicit: each patcher takes the relevant file state plus an
environment describing the collaborator's behaviour (success / failure modes),
and returns the outcome string, the resulting file state, and the list of
filesystem write actions it performed.
-/

namespace ImgMeta

/-! ### Characters and case folding

`pyDigit` is the character class `\d` restricted to ASCII (the Python regexes
use `\d` on `str`, which also accepts non-ASCII Unicode decimal digits; all
claims and counterexamples below involve ASCII filenames only).
`lowerChar` is ASCII case folding, as `str.lower` acts on ASCII. -/

def pyDigit (c : Char) : Bool := 48 ≤ c.toNat && c.toNat ≤ 57

def lowerChar (c : Char) : Char :=
  if 65 ≤ c.toNat ∧ c.toNat ≤ 90 then Char.ofNat (c.toNat + 32) else c

/-! ### Dates

`datetime.strptime(s, '%Y%m%d')` accepts exactly eight ASCII digits forming a
valid proleptic-Gregorian calendar date with year at least 1 (`datetime.MINYEAR`).
The parsed time-of-day is always midnight. -/

structure Date where
  year : Nat
  month : Nat
  day : Nat
deriving DecidableEq, Repr

def isLeapYear (y : Nat) : Bool :=
  (y % 4 == 0 && y % 100 != 0) || y % 400 == 0

def daysInMonth (y m : Nat) : Nat :=
  if m = 2 then (if isLeapYear y then 29 else 28)
  else if m = 4 ∨ m = 6 ∨ m = 9 ∨ m = 11 then 30
  else 31

def digitsToNat (cs : List Char) : Nat :=
  cs.foldl (fun a c => a * 10 + (c.toNat - 48)) 0

def parseYYYYMMDD (s : String) : Option Date :=
  let cs := s.toList
  if cs.length == 8 && cs.all pyDigit then
    let y := digitsToNat (cs.take 4)
    let m := digitsToNat ((cs.drop 4).take 2)
    let d := digitsToNat (cs.drop 6)
    if 1 ≤ y ∧ 1 ≤ m ∧ m ≤ 12 ∧ 1 ≤ d ∧ d ≤ daysInMonth y m then some ⟨y, m, d⟩
    else none
  else none

def pad2 (n : Nat) : String := if n < 10 then "0" ++ toString n else toString n

def pad4 (n : Nat) : String :=
  if n < 10 then "000" ++ toString n
  else if n < 100 then "00" ++ toString n
  else if n < 1000 then "0" ++ toString n
  else toString n

/-- `date.strftime("%Y:%m:%d %H:%M:%S")` at midnight (years here always come
from a four-digit field). -/
def formatExifDate (d : Date) : String :=
  pad4 d.year ++ ":" ++ pad2 d.month ++ ":" ++ pad2 d.day ++ " 00:00:00"

/-- `date.strftime("%Y-%m-%dT%H:%M:%S")` at midnight, used for the video patch. -/
def formatIsoDate (d : Date) : String :=
  pad4 d.year ++ "-" ++ pad2 d.month ++ "-" ++ pad2 d.day ++ "T00:00:00"

/-! ### Filename classifiers

`WHATSAPP_IMAGE_PATTERN = r"^IMG-\d{8}-WA\d{4}\.jpg$"` and
`SNAPCHAT_FILE_PATTERN = r"^Snapchat-\d+\.(jpg|mp4)$"`, applied with
`re.match`.  The cores below decide whether a character list matches the
whole pattern body.  In Python, a pattern ending in `$` (without `re.MULTILINE`)
also succeeds when the subject is a full-pattern match followed by one final
newline character; `pyFullMatch` reproduces that rule. -/

def whatsappMatchCore (cs : List Char) : Bool :=
  cs.length == 23 &&
  cs.take 4 == ['I', 'M', 'G', '-'] &&
  ((cs.drop 4).take 8).all pyDigit &&
  (cs.drop 12).take 3 == ['-', 'W', 'A'] &&
  ((cs.drop 15).take 4).all pyDigit &&
  cs.drop 19 == ['.', 'j', 'p', 'g']

def snapchatMatchCore (cs : List Char) : Bool :=
  cs.take 9 == ['S', 'n', 'a', 'p', 'c', 'h', 'a', 't', '-'] &&
  (let rest := cs.drop 9
   let digits := rest.take (rest.length - 4)
   let ext := rest.drop (rest.length - 4)
   !digits.isEmpty && digits.all pyDigit &&
     (ext == ['.', 'j', 'p', 'g'] || ext == ['.', 'm', 'p', '4']))

def pyFullMatch (core : List Char → Bool) (s : String) : Bool :=
  let cs := s.toList
  core cs || (!cs.isEmpty && cs.getLast? == some '\n' && core cs.dropLast)

def is_whatsapp_image (s : String) : Bool := pyFullMatch whatsappMatchCore s

def is_snapchat_file (s : String) : Bool := pyFullMatch snapchatMatchCore s

/-- `filename[4:12]` parsed with `strptime('%Y%m%d')`; `none` models the
`ValueError` the Python function raises on an unparseable slice. -/
def extract_date_from_whatsapp_filename (filename : String) : Option Date :=
  parseYYYYMMDD (((filename.drop 4).take 8))

/-! ### Exif model

`piexif` parses the raw exif bytes of a file into a dictionary of tag groups;
we model a file's embedded metadata block directly as that parsed dictionary
(tag number to byte-string value, as an association list; `piexif.dump` then
`piexif.load` round-trips the three date tags written here). -/

def DateTimeOriginalTag : Nat := 36867
def DateTimeDigitizedTag : Nat := 36868
def ImageDateTimeTag : Nat := 306

structure ExifDict where
  exifIFD : List (Nat × String)
  zeroth : List (Nat × String)
  firstIFD : List (Nat × String)
  gps : List (Nat × String)
  thumbnail : Option String
deriving DecidableEq, Repr

/-- `{'Exif': {}, '0th': {}, '1st': {}, 'thumbnail': None, 'GPS': {}}`. -/
def emptyExif : ExifDict := ⟨[], [], [], [], none⟩

/-- Python dict assignment `d[t] = v`: overwrite in place or append. -/
def setTag (l : List (Nat × String)) (t : Nat) (v : String) : List (Nat × String) :=
  match l with
  | [] => [(t, v)]
  | (t', v') :: rest => if t' = t then (t, v) :: rest else (t', v') :: setTag rest t v

def hasTag (l : List (Nat × String)) (t : Nat) : Bool :=
  l.any (fun p => p.1 == t)

/-! ### Image files and the image patcher -/

/-- The part of an image file `update_image_metadata` can observe:
the parsed metadata block, if `img.info` carries an `exif` entry,
and the (opaque) pixel payload. -/
structure ImageContent where
  exif : Option ExifDict
  pixels : Nat
deriving DecidableEq, Repr

/-- An image file on disk. `content = none` models a file on which
`Image.open` raises `UnidentifiedImageError`. -/
structure ImageFile where
  content : Option ImageContent
deriving DecidableEq, Repr

/-- How the in-place `img.save(file_path, "jpeg", exif=exif_bytes)` behaves:
it succeeds, or fails before writing any byte of the target (e.g. permission
denied on open), or fails mid-write.  PIL opens the target itself for writing
(truncating it), so a mid-write failure leaves the target truncated; the
truncated remainder is modelled as an unidentifiable container. -/
inductive SaveOutcome
  | ok
  | failsKeep
  | failsTruncate
deriving DecidableEq, Repr

/-- Environment for one image-patch call: whether `piexif.dump` succeeds and
how `img.save` behaves. -/
structure PatchEnv where
  dumpOk : Bool
  save : SaveOutcome
deriving DecidableEq, Repr

/-- Filesystem write actions a patcher can perform.
`openTargetWrite` is an in-place write of the target path itself
(`img.save(file_path, ...)`); the other three belong to the video patcher
(`<file_path>_temp.mp4` plus `os.replace` / `os.remove`). -/
inductive FsAction
  | openTargetWrite
  | writeTemp
  | replaceTempOntoTarget
  | removeTemp
deriving DecidableEq, Repr

/-- The three outcome strings `'exists'`, `'updated'`, `'failed'`. -/
inductive PatchResult
  | metadataExists
  | updated
  | failed
deriving DecidableEq, Repr

/-- `if date is None: date = extract_date_from_whatsapp_filename(...)`. -/
def resolveDate (filename : String) (date : Option Date) : Option Date :=
  match date with
  | some d => some d
  | none => extract_date_from_whatsapp_filename filename

/-- The three date-field assignments:
`exif_dict['Exif'][DateTimeOriginal] = fd`,
`exif_dict['Exif'][DateTimeDigitized] = fd`,
`exif_dict['0th'][DateTime] = fd`. -/
def stampExif (exif_dict : ExifDict) (fd : String) : ExifDict :=
  { exif_dict with
    exifIFD := setTag (setTag exif_dict.exifIFD DateTimeOriginalTag fd)
      DateTimeDigitizedTag fd,
    zeroth := setTag exif_dict.zeroth ImageDateTimeTag fd }

/-- `update_image_metadata(file_path, date=None)` of `WA_Snap_ExifUpdater.py`.
Returns the outcome, the resulting state of the file, and the write actions
performed.  Every exception (unreadable container, `ValueError` from the date
parse, `piexif.dump` error, save error) is caught and turned into `'failed'`. -/
def update_image_metadata (env : PatchEnv) (f : ImageFile) (filename : String)
    (date : Option Date) : PatchResult × ImageFile × List FsAction :=
  match f.content with
  | none => (.failed, f, [])
  | some img =>
    let exif_dict := match img.exif with
      | some loaded => loaded
      | none => emptyExif
    if img.exif.isSome && hasTag exif_dict.exifIFD DateTimeOriginalTag then
      (.metadataExists, f, [])
    else
      match resolveDate filename date with
      | none => (.failed, f, [])
      | some d =>
        let fd := formatExifDate d
        let newExif : ExifDict := stampExif exif_dict fd
        if env.dumpOk then
          match env.save with
          | .ok => (.updated, ⟨some { img with exif := some newExif }⟩, [.openTargetWrite])
          | .failsKeep => (.failed, f, [.openTargetWrite])
          | .failsTruncate => (.failed, ⟨none⟩, [.openTargetWrite])
        else (.failed, f, [])

/-- The file's metadata block defines a date-of-original-capture field. -/
def hasCaptureDate (f : ImageFile) : Bool :=
  match f.content with
  | some img =>
    match img.exif with
    | some e => hasTag e.exifIFD DateTimeOriginalTag
    | none => false
  | none => false

/-- The capture-date byte string stored in the file, if any. -/
def captureDateField (f : ImageFile) : Option String :=
  match f.content with
  | some img =>
    match img.exif with
    | some e => (e.exifIFD.find? (fun p => p.1 == DateTimeOriginalTag)).map Prod.snd
    | none => none
  | none => none

/-! ### Video files and the video patcher -/

/-- A video file as the remux contract sees it: the streams are copied
verbatim, and a single container-level `creation_time` field is stamped. -/
structure VideoContent where
  streams : Nat
  creationTime : Option String
deriving DecidableEq, Repr

/-- The `ffmpeg -i file -c copy -metadata creation_time=... temp` output. -/
def remuxOutput (v : VideoContent) (d : Date) : VideoContent :=
  { streams := v.streams, creationTime := some (formatIsoDate d) }

/-- The two paths `update_video_metadata` touches: the original file and
`file_path + '_temp.mp4'` (`none` = the temp path does not exist). -/
structure VideoFsState where
  original : VideoContent
  temp : Option VideoContent
deriving DecidableEq, Repr

/-- Environment for one video-patch call: the exit code of the ffmpeg
subprocess, and, when it fails, whether it left a partially written temp file
behind (and with what content). -/
structure RemuxEnv where
  exitCode : Nat
  leavesBrokenTemp : Bool
  brokenTempContent : VideoContent
deriving DecidableEq, Repr

/-- `update_video_metadata(file_path, date)` of `WA_Snap_ExifUpdater.py`.
On exit code 0 the temp file is written and `os.replace`d onto the original;
on a non-zero exit (`CalledProcessError`) the temp file is removed if it
exists and the outcome is `'failed'`. -/
def update_video_metadata (env : RemuxEnv) (st : VideoFsState) (date : Date) :
    PatchResult × VideoFsState × List FsAction :=
  if env.exitCode = 0 then
    (.updated, ⟨remuxOutput st.original date, none⟩,
      [.writeTemp, .replaceTempOntoTarget])
  else
    let afterFfmpeg : VideoFsState :=
      { st with temp := if env.leavesBrokenTemp then some env.brokenTempContent else none }
    match afterFfmpeg.temp with
    | some _ => (.failed, { afterFfmpeg with temp := none }, [.writeTemp, .removeTemp])
    | none => (.failed, afterFfmpeg, [])

/-! ### Checksums and backup verification

`file_checksum` streams a file through md5 in 4096-byte chunks; feeding the
chunks in order hashes exactly the file's contents, so it is the digest of the
whole content.  The digest function itself is an external collaborator and is
passed in as a parameter. -/

abbrev ByteSeq := List Nat

structure SrcEntry where
  rel : String
  content : ByteSeq
deriving DecidableEq, Repr

def file_checksum (hash : ByteSeq → Nat) (content : ByteSeq) : Nat := hash content

/-- The two error messages `verify_backup` can log for a source file. -/
inductive BackupReport
  | missing (rel : String)
  | mismatch (rel : String)
deriving DecidableEq, Repr

/-- The loop body of `verify_backup` for one source file: `none` means the
file passed silently. -/
def reportFor (hash : ByteSeq → Nat) (backup : String → Option ByteSeq)
    (e : SrcEntry) : Option BackupReport :=
  match backup e.rel with
  | none => some (.missing e.rel)
  | some c =>
    if file_checksum hash e.content ≠ file_checksum hash c
        ∨ e.content.length ≠ c.length then
      some (.mismatch e.rel)
    else none

/-- `verify_backup(source_dir, backup_dir)`: walk every source file (the
source tree is given as the list of relative paths `os.walk` yields, with
their contents; the backup tree as a partial map from relative path to
content) and log a report per missing or differing destination file. -/
def verify_backup (hash : ByteSeq → Nat) (src : List SrcEntry)
    (backup : String → Option ByteSeq) : List BackupReport :=
  src.filterMap (reportFor hash backup)

/-! ### The directory walker of `WA_Snap_ExifUpdater.py` -/

inductive Mode
  | whatsapp
  | snapchat
deriving DecidableEq, Repr

/-- One file encountered by the walk: its name and the state/environment the
patchers would see.  `image`/`imgEnv` are used when it is routed to the image
patcher, `video`/`vidEnv` when routed to the video patcher. -/
structure FileEntry where
  name : String
  image : ImageFile
  imgEnv : PatchEnv
  video : VideoFsState
  vidEnv : RemuxEnv
deriving Repr

/-- The tree `os.walk` traverses: the files of the top directory (yielded by
the first iteration, before the `if not recursive: break`), then the files of
all subdirectories in walk order. -/
structure DirTree where
  topFiles : List FileEntry
  deeperFiles : List FileEntry

/-- The files the loop actually visits. -/
def walked (tree : DirTree) (recursive : Bool) : List FileEntry :=
  tree.topFiles ++ (if recursive then tree.deeperFiles else [])

structure RunStats where
  total_files : Nat
  whatsapp_images : Nat
  snapchat_files : Nat
  metadata_exists : Nat
  metadata_updated : Nat
  update_failed : Nat
deriving DecidableEq, Repr

def initStats : RunStats := ⟨0, 0, 0, 0, 0, 0⟩

/-- The `if result == 'exists': ... elif ... elif ...` tally. -/
def tally (s : RunStats) (r : PatchResult) : RunStats :=
  match r with
  | .metadataExists => { s with metadata_exists := s.metadata_exists + 1 }
  | .updated => { s with metadata_updated := s.metadata_updated + 1 }
  | .failed => { s with update_failed := s.update_failed + 1 }

/-- `filename.lower().endswith('.mp4')`. -/
def endsWithMp4Lower (s : String) : Bool :=
  let cs := s.toList.map lowerChar
  cs.drop (cs.length - 4) == ['.', 'm', 'p', '4']

/-- Outcome of dispatching a matched file in snapchat mode.  `none` models
the uncaught `AttributeError` raised by `date.strftime` inside
`update_video_metadata` when `snapchat_date` is `None` (it is raised before
the `try` block, so it aborts the whole walk). -/
def snapResult (snapchat_date : Option Date) (e : FileEntry) : Option PatchResult :=
  if endsWithMp4Lower e.name then
    match snapchat_date with
    | some d => some (update_video_metadata e.vidEnv e.video d).1
    | none => none
  else some (update_image_metadata e.imgEnv e.image e.name snapchat_date).1

/-- The loop body of `process_directory` for one file; `none` propagates an
uncaught exception. -/
def stepFile (mode : Mode) (snapchat_date : Option Date) (s : RunStats)
    (e : FileEntry) : Option RunStats :=
  let s := { s with total_files := s.total_files + 1 }
  match mode with
  | .whatsapp =>
    if is_whatsapp_image e.name then
      let s := { s with whatsapp_images := s.whatsapp_images + 1 }
      some (tally s (update_image_metadata e.imgEnv e.image e.name none).1)
    else some s
  | .snapchat =>
    if is_snapchat_file e.name then
      let s := { s with snapchat_files := s.snapchat_files + 1 }
      match snapResult snapchat_date e with
      | some r => some (tally s r)
      | none => none
    else some s

/-- `process_directory(directory, override, recursive, mode, snapchat_date)`.
(The `override` parameter of the Python function is unused by its body and is
omitted.)  Returns the 5-tuple
`(total_files, whatsapp_images if mode == "whatsapp" else snapchat_files,
metadata_exists, metadata_updated, update_failed)`, or `none` if an uncaught
exception aborts the walk. -/
def process_directory (mode : Mode) (snapchat_date : Option Date)
    (recursive : Bool) (tree : DirTree) : Option (Nat × Nat × Nat × Nat × Nat) :=
  match (walked tree recursive).foldlM (stepFile mode snapchat_date) initStats with
  | some s =>
    some (s.total_files,
      (if mode = .whatsapp then s.whatsapp_images else s.snapchat_files),
      s.metadata_exists, s.metadata_updated, s.update_failed)
  | none => none

/-- Whether a file matches the active mode's naming convention. -/
def isMatched (mode : Mode) (e : FileEntry) : Bool :=
  match mode with
  | .whatsapp => is_whatsapp_image e.name
  | .snapchat => is_snapchat_file e.name

/-- The patch outcome a matched file is routed to. -/
def matchedOutcome (mode : Mode) (snapchat_date : Option Date)
    (e : FileEntry) : Option PatchResult :=
  match mode with
  | .whatsapp => some (update_image_metadata e.imgEnv e.image e.name none).1
  | .snapchat => snapResult snapchat_date e

/-- The outcomes of all matched files the walk visits, in order. -/
def outcomes (mode : Mode) (snapchat_date : Option Date) (recursive : Bool)
    (tree : DirTree) : List (Option PatchResult) :=
  ((walked tree recursive).filter (isMatched mode)).map (matchedOutcome mode snapchat_date)

/-- The matched-files counter `process_directory` reports for the mode. -/
def activeCount (mode : Mode) (s : RunStats) : Nat :=
  if mode = .whatsapp then s.whatsapp_images else s.snapchat_files

/-- The counter increments performed before dispatching a matched file. -/
def bump (mode : Mode) (s : RunStats) : RunStats :=
  match mode with
  | .whatsapp =>
    { s with
      total_files := s.total_files + 1
      whatsapp_images := s.whatsapp_images + 1 }
  | .snapchat =>
    { s with
      total_files := s.total_files + 1
      snapchat_files := s.snapchat_files + 1 }

/-! ### The CLI variant `WhatsAppExifUpdater.py` (namespace `WAU`)

Its `update_image_metadata` takes no date argument (the date always comes
from the filename) and its `process_directory` only looks at files whose name
ends in one of `.jpg`, `.jpeg`, `.png`, `.heic`. -/

namespace WAU

/-- `update_image_metadata(file_path)` of `WhatsAppExifUpdater.py`. -/
def update_image_metadata (env : PatchEnv) (f : ImageFile) (filename : String) :
    PatchResult × ImageFile × List FsAction :=
  match f.content with
  | none => (.failed, f, [])
  | some img =>
    let exif_dict := match img.exif with
      | some loaded => loaded
      | none => emptyExif
    if img.exif.isSome && hasTag exif_dict.exifIFD DateTimeOriginalTag then
      (.metadataExists, f, [])
    else
      match extract_date_from_whatsapp_filename filename with
      | none => (.failed, f, [])
      | some d =>
        let fd := formatExifDate d
        let newExif : ExifDict := stampExif exif_dict fd
        if env.dumpOk then
          match env.save with
          | .ok => (.updated, ⟨some { img with exif := some newExif }⟩, [.openTargetWrite])
          | .failsKeep => (.failed, f, [.openTargetWrite])
          | .failsTruncate => (.failed, ⟨none⟩, [.openTargetWrite])
        else (.failed, f, [])

/-- `s.endswith(suf)` (case-sensitive). -/
def endsWithStr (suf s : String) : Bool :=
  let cs := s.toList
  let sl := suf.toList
  cs.drop (cs.length - sl.length) == sl

/-- `filename.endswith((".jpg", ".jpeg", ".png", ".heic"))`. -/
def imageExt (s : String) : Bool :=
  endsWithStr ".jpg" s || endsWithStr ".jpeg" s || endsWithStr ".png" s
    || endsWithStr ".heic" s

structure RunStats where
  total_images : Nat
  whatsapp_images : Nat
  non_whatsapp_images : Nat
  metadata_exists : Nat
  metadata_updated : Nat
  update_failed : Nat
deriving DecidableEq, Repr

def initStats : RunStats := ⟨0, 0, 0, 0, 0, 0⟩

def tally (s : RunStats) (r : PatchResult) : RunStats :=
  match r with
  | .metadataExists => { s with metadata_exists := s.metadata_exists + 1 }
  | .updated => { s with metadata_updated := s.metadata_updated + 1 }
  | .failed => { s with update_failed := s.update_failed + 1 }

/-- The loop body of `WhatsAppExifUpdater.process_directory` for one file. -/
def stepFile (s : RunStats) (e : FileEntry) : RunStats :=
  if imageExt e.name then
    let s := { s with total_images := s.total_images + 1 }
    if is_whatsapp_image e.name then
      let s := { s with whatsapp_images := s.whatsapp_images + 1 }
      tally s (update_image_metadata e.imgEnv e.image e.name).1
    else { s with non_whatsapp_images := s.non_whatsapp_images + 1 }
  else s

/-- `process_directory(directory, override, recursive)` of
`WhatsAppExifUpdater.py` (again, `override` is unused by the body).  Returns
`(total_images, whatsapp_images, non_whatsapp_images, metadata_exists,
metadata_updated, update_failed)`. -/
def process_directory (recursive : Bool) (tree : DirTree) :
    Nat × Nat × Nat × Nat × Nat × Nat :=
  let s := (walked tree recursive).foldl stepFile initStats
  (s.total_images, s.whatsapp_images, s.non_whatsapp_images,
    s.metadata_exists, s.metadata_updated, s.update_failed)

end WAU

/-! ### Structure of matching filenames -/

def waLit1 : List Char := ['I', 'M', 'G', '-']
def waLit2 : List Char := ['-', 'W', 'A']
def waLit3 : List Char := ['.', 'j', 'p', 'g']
def snapLit : List Char := ['S', 'n', 'a', 'p', 'c', 'h', 'a', 't', '-']
def jpgExt : List Char := ['.', 'j', 'p', 'g']
def mp4Ext : List Char := ['.', 'm', 'p', '4']

/-- Exactly the character lists matching the body of the WhatsApp pattern. -/
def WAShape (cs : List Char) : Prop :=
  ∃ d8 d4 : List Char,
    cs = waLit1 ++ (d8 ++ (waLit2 ++ (d4 ++ waLit3))) ∧
    d8.length = 8 ∧ d8.all pyDigit = true ∧ d4.length = 4 ∧ d4.all pyDigit = true

/-- Exactly the character lists matching the body of the Snapchat pattern. -/
def SnapShape (cs : List Char) : Prop :=
  ∃ ds ext : List Char,
    cs = snapLit ++ (ds ++ ext) ∧ ds ≠ [] ∧ ds.all pyDigit = true ∧
    (ext = jpgExt ∨ ext = mp4Ext)

lemma whatsappMatchCore_iff {cs : List Char} :
    whatsappMatchCore cs = true ↔ WAShape cs := by
  constructor
  · intro h
    unfold whatsappMatchCore at h
    simp only [Bool.and_eq_true, beq_iff_eq] at h
    obtain ⟨⟨⟨⟨⟨hlen, ht4⟩, hd8⟩, ht3⟩, hd4⟩, hlast⟩ := h
    refine ⟨(cs.drop 4).take 8, (cs.drop 15).take 4, ?_, ?_, hd8, ?_, hd4⟩
    · have e1 := (List.take_append_drop 4 cs).symm
      have e2 := (List.take_append_drop 8 (cs.drop 4)).symm
      have e3 := (List.take_append_drop 3 (cs.drop 12)).symm
      have e4 := (List.take_append_drop 4 (cs.drop 15)).symm
      rw [List.drop_drop] at e2 e3 e4
      norm_num at e2 e3 e4
      rw [ht4] at e1
      rw [ht3] at e3
      rw [hlast] at e4
      simp only [waLit1, waLit2, waLit3]
      calc cs = ['I', 'M', 'G', '-'] ++ cs.drop 4 := e1
        _ = ['I', 'M', 'G', '-'] ++ ((cs.drop 4).take 8 ++ cs.drop 12) := by rw [← e2]
        _ = ['I', 'M', 'G', '-'] ++ ((cs.drop 4).take 8
              ++ (['-', 'W', 'A'] ++ cs.drop 15)) := by rw [e3]
        _ = ['I', 'M', 'G', '-'] ++ ((cs.drop 4).take 8
              ++ (['-', 'W', 'A'] ++ ((cs.drop 15).take 4
                ++ ['.', 'j', 'p', 'g']))) := by conv_lhs => rw [e4]
    · simp [List.length_take, List.length_drop, hlen]
    · simp [List.length_take, List.length_drop, hlen]
  · rintro ⟨d8, d4, rfl, h8, hd8, h4, hd4⟩
    have L1 : waLit1.length = 4 := rfl
    have L12 : (waLit1 ++ d8).length = 12 := by simp [waLit1, h8]
    have L15 : ((waLit1 ++ d8) ++ waLit2).length = 15 := by simp [waLit1, waLit2, h8]
    have L19 : (((waLit1 ++ d8) ++ waLit2) ++ d4).length = 19 := by
      simp [waLit1, waLit2, h8, h4]
    unfold whatsappMatchCore
    simp only [Bool.and_eq_true, beq_iff_eq]
    refine ⟨⟨⟨⟨⟨?_, ?_⟩, ?_⟩, ?_⟩, ?_⟩, ?_⟩
    · simp [waLit1, waLit2, waLit3, h8, h4]
    · exact List.take_left' L1
    · rw [List.drop_left' L1, List.take_left' h8]; exact hd8
    · have : waLit1 ++ (d8 ++ (waLit2 ++ (d4 ++ waLit3)))
          = ((waLit1 ++ d8) ++ waLit2) ++ (d4 ++ waLit3) := by simp
      rw [this]
      have h12 : (((waLit1 ++ d8) ++ waLit2) ++ (d4 ++ waLit3)).drop 12
          = waLit2 ++ (d4 ++ waLit3) := by
        rw [List.append_assoc (waLit1 ++ d8) waLit2 (d4 ++ waLit3)]
        exact List.drop_left' L12
      rw [h12]
      exact List.take_left' rfl
    · have : waLit1 ++ (d8 ++ (waLit2 ++ (d4 ++ waLit3)))
          = (((waLit1 ++ d8) ++ waLit2) ++ d4) ++ waLit3 := by simp
      rw [this]
      have h15 : ((((waLit1 ++ d8) ++ waLit2) ++ d4) ++ waLit3).drop 15
          = d4 ++ waLit3 := by
        rw [List.append_assoc ((waLit1 ++ d8) ++ waLit2) d4 waLit3]
        exact List.drop_left' L15
      rw [h15, List.take_left' h4]
      exact hd4
    · have : waLit1 ++ (d8 ++ (waLit2 ++ (d4 ++ waLit3)))
          = (((waLit1 ++ d8) ++ waLit2) ++ d4) ++ waLit3 := by simp
      rw [this]
      exact List.drop_left' L19

lemma snapchatMatchCore_iff {cs : List Char} :
    snapchatMatchCore cs = true ↔ SnapShape cs := by
  constructor
  · intro h
    unfold snapchatMatchCore at h
    simp only [Bool.and_eq_true, beq_iff_eq, Bool.or_eq_true,
      Bool.not_eq_true', List.isEmpty_eq_false] at h
    obtain ⟨ht9, ⟨hne, hdg⟩, hext⟩ := h
    refine ⟨(cs.drop 9).take ((cs.drop 9).length - 4),
            (cs.drop 9).drop ((cs.drop 9).length - 4), ?_, hne, hdg, hext⟩
    have e1 := (List.take_append_drop 9 cs).symm
    rw [ht9] at e1
    rw [e1]
    congr 1
    exact (List.take_append_drop _ (cs.drop 9)).symm
  · rintro ⟨ds, ext, rfl, hne, hdg, hext⟩
    have L9 : snapLit.length = 9 := rfl
    have hextLen : ext.length = 4 := by rcases hext with h | h <;> simp [h, jpgExt, mp4Ext]
    have hdsLen : (ds ++ ext).length - 4 = ds.length := by simp [hextLen]
    unfold snapchatMatchCore
    simp only [Bool.and_eq_true, beq_iff_eq, Bool.or_eq_true,
      Bool.not_eq_true', List.isEmpty_eq_false]
    refine ⟨List.take_left' L9, ⟨?_, ?_⟩, ?_⟩
    · rw [List.drop_left' L9, hdsLen, List.take_left' rfl]; exact hne
    · rw [List.drop_left' L9, hdsLen, List.take_left' rfl]; exact hdg
    · rw [List.drop_left' L9, hdsLen, List.drop_left' rfl]
      rcases hext with h | h <;> simp [h, jpgExt, mp4Ext]

/-! ### Character facts -/

lemma pyDigit_char {c : Char} (h : pyDigit c = true) :
    c ≠ '\n' ∧ c ≠ 'I' ∧ c ≠ 'S' ∧ c ≠ '.' := by
  refine ⟨?_, ?_, ?_, ?_⟩ <;> rintro rfl <;> simp [pyDigit] at h

lemma lowerChar_digit {c : Char} (h : pyDigit c = true) : lowerChar c = c := by
  have hc : c.toNat ≤ 57 := by
    simp only [pyDigit, Bool.and_eq_true, decide_eq_true_eq] at h
    exact h.2
  unfold lowerChar
  rw [if_neg]
  omega

lemma toNat_ofNat_lower {n : Nat} (h1 : 97 ≤ n) (h2 : n ≤ 122) :
    (Char.ofNat n).toNat = n := by
  unfold Char.ofNat
  split
  · rename_i h
    show (Char.ofNatAux n h).toNat = n
    unfold Char.ofNatAux
    show (UInt32.ofNat' n _).toNat = n
    simp [UInt32.ofNat', UInt32.toNat]
  · rename_i h
    exact absurd (Or.inl (by omega)) h

lemma lowerChar_eq_newline {c : Char} (h : lowerChar c = '\n') : c = '\n' := by
  by_cases hc : 65 ≤ c.toNat ∧ c.toNat ≤ 90
  · exfalso
    rw [lowerChar, if_pos hc] at h
    have h2 := congrArg Char.toNat h
    rw [toNat_ofNat_lower (by omega) (by omega)] at h2
    have h3 : ('\n').toNat = 10 := rfl
    rw [h3] at h2
    omega
  · rwa [lowerChar, if_neg hc] at h

/-! ### Heads, tails and newlines of matching names -/

lemma waShape_ne_nil {cs : List Char} (h : WAShape cs) : cs ≠ [] := by
  obtain ⟨d8, d4, rfl, -⟩ := h
  simp [waLit1]

lemma snapShape_ne_nil {cs : List Char} (h : SnapShape cs) : cs ≠ [] := by
  obtain ⟨ds, ext, rfl, -⟩ := h
  simp [snapLit]

lemma waShape_head {cs : List Char} (h : WAShape cs) : cs.head? = some 'I' := by
  obtain ⟨d8, d4, rfl, -⟩ := h
  simp [waLit1]

lemma snapShape_head {cs : List Char} (h : SnapShape cs) : cs.head? = some 'S' := by
  obtain ⟨ds, ext, rfl, -⟩ := h
  simp [snapLit]

lemma waShape_no_newline {cs : List Char} (h : WAShape cs) : '\n' ∉ cs := by
  obtain ⟨d8, d4, rfl, -, hd8, -, hd4⟩ := h
  intro hmem
  rw [List.all_eq_true] at hd8 hd4
  simp only [waLit1, waLit2, waLit3, List.cons_append, List.mem_append,
    List.mem_cons, List.not_mem_nil, or_false, false_or] at hmem
  rcases hmem with h | h | h | h | h | h | h | h | h | h | h | h | h <;>
    first
      | exact absurd h (by decide)
      | exact (pyDigit_char (hd8 _ h)).1 rfl
      | exact (pyDigit_char (hd4 _ h)).1 rfl

lemma snapShape_no_newline {cs : List Char} (h : SnapShape cs) : '\n' ∉ cs := by
  obtain ⟨ds, ext, rfl, -, hds, hext⟩ := h
  intro hmem
  rw [List.all_eq_true] at hds
  simp only [snapLit, List.cons_append, List.mem_append,
    List.mem_cons, List.not_mem_nil, or_false, false_or] at hmem
  rcases hmem with h | h | h | h | h | h | h | h | h | h | h <;>
    first
      | exact absurd h (by decide)
      | exact (pyDigit_char (hds _ h)).1 rfl
      | exact (by rcases hext with he | he <;> subst he <;> revert h <;> decide)

lemma waShape_tail_chars {cs : List Char} (h : WAShape cs) :
    ∀ c ∈ cs.tail, c ≠ 'I' ∧ c ≠ 'S' := by
  obtain ⟨d8, d4, rfl, -, hd8, -, hd4⟩ := h
  intro c hc
  rw [List.all_eq_true] at hd8 hd4
  simp only [waLit1, waLit2, waLit3, List.cons_append, List.tail_cons,
    List.mem_append, List.mem_cons, List.not_mem_nil, or_false, false_or] at hc
  rcases hc with h | h | h | h | h | h | h | h | h | h | h | h <;>
    first
      | (subst h; exact ⟨by decide, by decide⟩)
      | exact ⟨(pyDigit_char (hd8 _ h)).2.1, (pyDigit_char (hd8 _ h)).2.2.1⟩
      | exact ⟨(pyDigit_char (hd4 _ h)).2.1, (pyDigit_char (hd4 _ h)).2.2.1⟩

lemma snapShape_tail_chars {cs : List Char} (h : SnapShape cs) :
    ∀ c ∈ cs.tail, c ≠ 'I' ∧ c ≠ 'S' := by
  obtain ⟨ds, ext, rfl, -, hds, hext⟩ := h
  intro c hc
  rw [List.all_eq_true] at hds
  simp only [snapLit, List.cons_append, List.tail_cons,
    List.mem_append, List.mem_cons, List.not_mem_nil, or_false, false_or] at hc
  rcases hc with h | h | h | h | h | h | h | h | h | h <;>
    first
      | (subst h; exact ⟨by decide, by decide⟩)
      | exact ⟨(pyDigit_char (hds _ h)).2.1, (pyDigit_char (hds _ h)).2.2.1⟩
      | (rcases hext with he | he <;> subst he <;>
          simp only [jpgExt, mp4Ext, List.mem_cons, List.not_mem_nil, or_false] at h <;>
          rcases h with rfl | rfl | rfl | rfl <;> exact ⟨by decide, by decide⟩)

/-! ### Characterisation of the two classifiers -/

/-- A `re.match` against a `...$` pattern succeeds on the pattern body itself
or on the body followed by one final newline. -/
def PyMatch (Shape : List Char → Prop) (cs : List Char) : Prop :=
  Shape cs ∨ ∃ ys, Shape ys ∧ cs = ys ++ ['\n']

lemma pyFullMatch_iff {core : List Char → Bool} {Shape : List Char → Prop}
    (hcore : ∀ cs, core cs = true ↔ Shape cs) (s : String) :
    pyFullMatch core s = true ↔ PyMatch Shape s.toList := by
  unfold pyFullMatch PyMatch
  simp only [Bool.or_eq_true, Bool.and_eq_true, Bool.not_eq_true',
    List.isEmpty_eq_false, beq_iff_eq, hcore]
  constructor
  · rintro (h | ⟨⟨hne, hlast⟩, hshape⟩)
    · exact Or.inl h
    · refine Or.inr ⟨s.toList.dropLast, hshape, ?_⟩
      have := List.dropLast_append_getLast hne
      rw [List.getLast?_eq_getLast_of_ne_nil hne] at hlast
      obtain hl := Option.some.inj hlast
      rw [hl] at this
      exact this.symm
  · rintro (h | ⟨ys, hshape, heq⟩)
    · exact Or.inl h
    · refine Or.inr ⟨⟨?_, ?_⟩, ?_⟩
      · rw [heq]; simp
      · rw [heq, List.getLast?_concat]
      · rw [heq, List.dropLast_concat]; exact hshape

lemma is_whatsapp_image_iff (s : String) :
    is_whatsapp_image s = true ↔ PyMatch WAShape s.toList :=
  pyFullMatch_iff (fun _ => whatsappMatchCore_iff) s

lemma is_snapchat_file_iff (s : String) :
    is_snapchat_file s = true ↔ PyMatch SnapShape s.toList :=
  pyFullMatch_iff (fun _ => snapchatMatchCore_iff) s

lemma pyMatch_head_wa {cs : List Char} (h : PyMatch WAShape cs) :
    cs.head? = some 'I' := by
  rcases h with h | ⟨ys, hy, rfl⟩
  · exact waShape_head h
  · rw [List.head?_append, waShape_head hy]; rfl

lemma pyMatch_head_snap {cs : List Char} (h : PyMatch SnapShape cs) :
    cs.head? = some 'S' := by
  rcases h with h | ⟨ys, hy, rfl⟩
  · exact snapShape_head h
  · rw [List.head?_append, snapShape_head hy]; rfl

lemma pyMatch_ne_nil_wa {cs : List Char} (h : PyMatch WAShape cs) : cs ≠ [] := by
  intro hnil
  have := pyMatch_head_wa h
  rw [hnil] at this
  exact Option.noConfusion this

lemma pyMatch_ne_nil_snap {cs : List Char} (h : PyMatch SnapShape cs) : cs ≠ [] := by
  intro hnil
  have := pyMatch_head_snap h
  rw [hnil] at this
  exact Option.noConfusion this

/-! ### Rigidity: a pattern body is never a proper prefix of another body -/

lemma waShape_length {cs : List Char} (h : WAShape cs) : cs.length = 23 := by
  obtain ⟨d8, d4, rfl, h8, -, h4, -⟩ := h
  simp [waLit1, waLit2, waLit3, h8, h4]

lemma waShape_rigid {s u : List Char} (hsu : WAShape (s ++ u)) (hs : WAShape s) :
    u = [] := by
  have h1 := waShape_length hsu
  have h2 := waShape_length hs
  rw [List.length_append, h2] at h1
  exact List.eq_nil_of_length_eq_zero (by omega)

/-- Two all-digit runs followed by a dot-started block decompose uniquely. -/
lemma digits_dot_eq {a : List Char} :
    ∀ {b x y : List Char}, a.all pyDigit = true → b.all pyDigit = true →
      a ++ '.' :: x = b ++ '.' :: y → a = b ∧ x = y := by
  induction a with
  | nil =>
    intro b x y _ hb heq
    cases b with
    | nil => simpa using heq
    | cons c b' =>
      exfalso
      rw [List.nil_append, List.cons_append] at heq
      obtain ⟨hc, -⟩ := List.cons.inj heq
      rw [List.all_cons, Bool.and_eq_true] at hb
      exact (pyDigit_char hb.1).2.2.2 hc.symm
  | cons c a' ih =>
    intro b x y ha hb heq
    cases b with
    | nil =>
      exfalso
      rw [List.nil_append, List.cons_append] at heq
      obtain ⟨hc, -⟩ := List.cons.inj heq
      rw [List.all_cons, Bool.and_eq_true] at ha
      exact (pyDigit_char ha.1).2.2.2 hc
    | cons c' b' =>
      rw [List.cons_append, List.cons_append] at heq
      obtain ⟨hc, htl⟩ := List.cons.inj heq
      rw [List.all_cons, Bool.and_eq_true] at ha hb
      obtain ⟨hab, hxy⟩ := ih ha.2 hb.2 htl
      exact ⟨by rw [hc, hab], hxy⟩

lemma snapShape_rigid {s u : List Char} (hsu : SnapShape (s ++ u)) (hs : SnapShape s) :
    u = [] := by
  obtain ⟨dx, ex, hx, -, hdx, hex⟩ := hsu
  obtain ⟨ds, es, hsEq, -, hds, hes⟩ := hs
  rw [hsEq] at hx
  rw [List.append_assoc] at hx
  have hmid : dx ++ ex = ds ++ (es ++ u) := by
    have h' := List.append_cancel_left hx
    rw [List.append_assoc] at h'
    exact h'.symm
  have hex4 : ∃ x, ex = '.' :: x ∧ x.length = 3 := by
    rcases hex with h | h <;> subst h <;> exact ⟨_, rfl, rfl⟩
  have hes4 : ∃ y, es = '.' :: y ∧ y.length = 3 := by
    rcases hes with h | h <;> subst h <;> exact ⟨_, rfl, rfl⟩
  obtain ⟨x, rfl, hx3⟩ := hex4
  obtain ⟨y, rfl, hy3⟩ := hes4
  rw [List.cons_append] at hmid
  obtain ⟨-, hxy⟩ := digits_dot_eq hdx hds hmid
  have := congrArg List.length hxy
  rw [List.length_append, hx3, hy3] at this
  exact List.eq_nil_of_length_eq_zero (by omega)

/-- The only way a matched name can be a proper prefix of a matched name:
the longer one is the shorter one plus the trailing newline. -/
lemma pyMatch_prefix_gen {Shape : List Char → Prop}
    (noNl : ∀ {cs : List Char}, Shape cs → '\n' ∉ cs)
    (rigid : ∀ {s u : List Char}, Shape (s ++ u) → Shape s → u = [])
    {s t : List Char} (hX : PyMatch Shape (s ++ t)) (hs : PyMatch Shape s) :
    t = [] ∨ t = ['\n'] := by
  rcases hX with hX | ⟨ys, hy, hyeq⟩
  · rcases hs with hs | ⟨zs, hz, rfl⟩
    · exact Or.inl (rigid hX hs)
    · exfalso
      apply noNl hX
      rw [List.append_assoc]
      simp
  · rcases List.eq_nil_or_concat t with rfl | ⟨t', c, rfl⟩
    · exact Or.inl rfl
    · rw [List.concat_eq_append, ← List.append_assoc] at hyeq
      obtain ⟨hy2, hc⟩ := List.append_inj' hyeq rfl
      obtain ⟨rfl, -⟩ := List.cons.inj hc
      rcases hs with hs | ⟨zs, hz, rfl⟩
      · right
        have ht' : t' = [] := rigid (hy2 ▸ hy) hs
        rw [List.concat_eq_append, ht', List.nil_append]
      · exfalso
        apply noNl hy
        rw [← hy2, List.append_assoc]
        simp

/-- No character of a matched name other than its first one is `I` or `S`. -/
lemma pyMatch_tail_chars {Shape : List Char → Prop}
    (tailChars : ∀ {cs : List Char}, Shape cs → ∀ c ∈ cs.tail, c ≠ 'I' ∧ c ≠ 'S')
    (neNil : ∀ {cs : List Char}, Shape cs → cs ≠ [])
    {cs : List Char} (h : PyMatch Shape cs) : ∀ c ∈ cs.tail, c ≠ 'I' ∧ c ≠ 'S' := by
  rcases h with h | ⟨ys, hy, rfl⟩
  · exact tailChars h
  · intro c hc
    rcases ys with _ | ⟨a, ys'⟩
    · exact absurd rfl (neNil hy)
    · rw [List.cons_append, List.tail_cons] at hc
      rcases List.mem_append.mp hc with h1 | h1
      · exact tailChars hy c (by rw [List.tail_cons]; exact h1)
      · rw [List.mem_singleton.mp h1]
        exact ⟨by decide, by decide⟩

lemma map_lowerChar_digits {l : List Char} (h : l.all pyDigit = true) :
    l.map lowerChar = l := by
  induction l with
  | nil => rfl
  | cons c l ih =>
    rw [List.all_cons, Bool.and_eq_true] at h
    rw [List.map_cons, lowerChar_digit h.1, ih h.2]

lemma waShape_case_unique {a b : List Char} (ha : WAShape a) (hb : WAShape b)
    (h : a.map lowerChar = b.map lowerChar) : a = b := by
  obtain ⟨d8, d4, rfl, h8, hd8, h4, hd4⟩ := ha
  obtain ⟨e8, e4, rfl, g8, he8, g4, he4⟩ := hb
  simp only [List.map_append] at h
  rw [map_lowerChar_digits hd8, map_lowerChar_digits hd4,
    map_lowerChar_digits he8, map_lowerChar_digits he4] at h
  have h1 := List.append_cancel_left h
  obtain ⟨hdeq, h2⟩ := List.append_inj h1 (by rw [h8, g8])
  have h3 := List.append_cancel_left h2
  obtain ⟨hdeq4, -⟩ := List.append_inj h3 (by rw [h4, g4])
  rw [hdeq, hdeq4]

lemma snapShape_case_unique {a b : List Char} (ha : SnapShape a) (hb : SnapShape b)
    (h : a.map lowerChar = b.map lowerChar) : a = b := by
  obtain ⟨ds, ex, rfl, -, hds, hex⟩ := ha
  obtain ⟨es, eb, rfl, -, hes, heb⟩ := hb
  simp only [List.map_append] at h
  have hmx : ex.map lowerChar = ex := by
    rcases hex with he | he <;> subst he <;> decide
  have hmb : eb.map lowerChar = eb := by
    rcases heb with he | he <;> subst he <;> decide
  rw [map_lowerChar_digits hds, map_lowerChar_digits hes, hmx, hmb] at h
  have h1 := List.append_cancel_left h
  obtain ⟨x, hxe, hx3⟩ : ∃ x, ex = '.' :: x ∧ x.length = 3 := by
    rcases hex with he | he <;> subst he <;> exact ⟨_, rfl, rfl⟩
  obtain ⟨y, hye, hy3⟩ : ∃ y, eb = '.' :: y ∧ y.length = 3 := by
    rcases heb with he | he <;> subst he <;> exact ⟨_, rfl, rfl⟩
  rw [hxe, hye] at h1
  obtain ⟨hde, hxy⟩ := digits_dot_eq hds hes h1
  rw [hde, hxe, hye, hxy]

lemma pyMatch_case_unique {Shape : List Char → Prop}
    (noNl : ∀ {cs : List Char}, Shape cs → '\n' ∉ cs)
    (cu : ∀ {a b : List Char}, Shape a → Shape b →
      a.map lowerChar = b.map lowerChar → a = b)
    {a b : List Char} (ha : PyMatch Shape a) (hb : PyMatch Shape b)
    (h : a.map lowerChar = b.map lowerChar) : a = b := by
  have hnl : lowerChar '\n' = '\n' := by decide
  rcases ha with ha | ⟨ya, hya, rfl⟩ <;> rcases hb with hb | ⟨yb, hyb, rfl⟩
  · exact cu ha hb h
  · exfalso
    apply noNl ha
    rw [List.map_append] at h
    have : '\n' ∈ a.map lowerChar := by
      rw [h]
      exact List.mem_append_right _ (by simp [hnl])
    obtain ⟨c, hca, hcl⟩ := List.mem_map.mp this
    rw [lowerChar_eq_newline hcl] at hca
    exact hca
  · exfalso
    apply noNl hb
    rw [List.map_append] at h
    have : '\n' ∈ b.map lowerChar := by
      rw [← h]
      exact List.mem_append_right _ (by simp [hnl])
    obtain ⟨c, hcb, hcl⟩ := List.mem_map.mp this
    rw [lowerChar_eq_newline hcl] at hcb
    exact hcb
  · rw [List.map_append, List.map_append] at h
    obtain ⟨h1, -⟩ := List.append_inj' h rfl
    rw [cu hya hyb h1]

lemma pyMatch_map_head_wa {a : List Char} (h : PyMatch WAShape a) :
    (a.map lowerChar).head? = some 'i' := by
  rw [List.head?_map, pyMatch_head_wa h]
  decide

lemma pyMatch_map_head_snap {a : List Char} (h : PyMatch SnapShape a) :
    (a.map lowerChar).head? = some 's' := by
  rw [List.head?_map, pyMatch_head_snap h]
  decide

/-! ### String-level plumbing -/

lemma toList_append (s t : String) : (s ++ t).toList = s.toList ++ t.toList :=
  String.data_append s t

lemma toList_inj {s t : String} (h : s.toList = t.toList) : s = t :=
  String.ext h

lemma ne_empty_iff_toList {s : String} : s ≠ "" ↔ s.toList ≠ [] := by
  constructor
  · intro h h2
    exact h (String.ext (by simpa [String.toList] using h2))
  · intro h h2
    exact h (by simp [h2, String.toList])

/-- Either classifier accepts the filename. -/
def matchedName (s : String) : Bool := is_whatsapp_image s || is_snapchat_file s

lemma matchedName_iff (s : String) :
    matchedName s = true ↔ PyMatch WAShape s.toList ∨ PyMatch SnapShape s.toList := by
  rw [matchedName, Bool.or_eq_true, is_whatsapp_image_iff, is_snapchat_file_iff]

/-! ### Claim C4 -/

/-- C4 counterexample: the claim says no proper prefix of a matching filename
is itself classified as matched.  But Python's `$` also matches just before a
final newline, so the 24-character filename `IMG-20230815-WA0001.jpg` plus a
trailing newline is matched by the WhatsApp classifier, and its 23-character
proper prefix `IMG-20230815-WA0001.jpg` is matched as well. -/
theorem C4_counterexample :
    is_whatsapp_image "IMG-20230815-WA0001.jpg\n" = true ∧
    is_whatsapp_image "IMG-20230815-WA0001.jpg" = true ∧
    "IMG-20230815-WA0001.jpg" ++ "\n" = "IMG-20230815-WA0001.jpg\n" ∧
    "\n" ≠ "" :=
  ⟨by decide, by decide, by decide, by decide⟩

/-- C4 (amended): (1) at most one of the two classifiers matches any string;
(2) a proper prefix of a matching filename is itself matched only in the one
case Python's `$` admits — the filename is a match followed by a final
newline and the prefix is that match; (3) no proper suffix of a matching
filename is matched; (4) matching is case-sensitive: two matching filenames
that agree up to ASCII letter case are equal. -/
theorem C4_classifier_anchoring :
    (∀ s : String, is_whatsapp_image s = true → is_snapchat_file s = false) ∧
    (∀ s t : String, matchedName (s ++ t) = true → matchedName s = true →
      t = "" ∨ t = "\n") ∧
    (∀ s t : String, s ≠ "" → matchedName (s ++ t) = true → matchedName t = false) ∧
    (∀ s s' : String, matchedName s = true → matchedName s' = true →
      s.toList.map lowerChar = s'.toList.map lowerChar → s = s') := by
  refine ⟨?_, ?_, ?_, ?_⟩
  · intro s h
    by_contra hB
    rw [Bool.not_eq_false] at hB
    have h1 := pyMatch_head_wa ((is_whatsapp_image_iff s).mp h)
    have h2 := pyMatch_head_snap ((is_snapchat_file_iff s).mp hB)
    rw [h1] at h2
    exact absurd (Option.some.inj h2) (by decide)
  · intro s t hX hs
    rw [matchedName_iff] at hX hs
    rw [toList_append] at hX
    have key : t.toList = [] ∨ t.toList = ['\n'] := by
      rcases hX with hX | hX <;> rcases hs with hs | hs
      · exact pyMatch_prefix_gen waShape_no_newline waShape_rigid hX hs
      · exfalso
        have h1 := pyMatch_head_wa hX
        have h2 := pyMatch_head_snap hs
        rw [List.head?_append, h2] at h1
        exact absurd (Option.some.inj h1) (by decide)
      · exfalso
        have h1 := pyMatch_head_snap hX
        have h2 := pyMatch_head_wa hs
        rw [List.head?_append, h2] at h1
        exact absurd (Option.some.inj h1) (by decide)
      · exact pyMatch_prefix_gen snapShape_no_newline snapShape_rigid hX hs
    rcases key with h | h
    · exact Or.inl (toList_inj (by rw [h]; rfl))
    · exact Or.inr (toList_inj (by rw [h]; rfl))
  · intro s t hne hX
    by_contra hB
    rw [Bool.not_eq_false, matchedName_iff] at hB
    rw [matchedName_iff, toList_append] at hX
    have hsl : s.toList ≠ [] := ne_empty_iff_toList.mp hne
    have hhead : ∃ c, t.toList.head? = some c ∧ (c = 'I' ∨ c = 'S') := by
      rcases hB with h | h
      · exact ⟨'I', pyMatch_head_wa h, Or.inl rfl⟩
      · exact ⟨'S', pyMatch_head_snap h, Or.inr rfl⟩
    obtain ⟨c, hc, hcIS⟩ := hhead
    have hct : c ∈ t.toList := by
      cases htl : t.toList with
      | nil => rw [htl] at hc; exact Option.noConfusion hc
      | cons a l =>
        rw [htl, List.head?_cons] at hc
        rw [← Option.some.inj hc]
        exact List.mem_cons_self a l
    have hmemtail : c ∈ (s.toList ++ t.toList).tail := by
      cases hsl' : s.toList with
      | nil => exact absurd hsl' hsl
      | cons a l =>
        rw [List.cons_append, List.tail_cons]
        exact List.mem_append_right _ hct
    rcases hX with hX | hX
    · have hcs := pyMatch_tail_chars waShape_tail_chars waShape_ne_nil hX c hmemtail
      rcases hcIS with rfl | rfl
      exacts [hcs.1 rfl, hcs.2 rfl]
    · have hcs := pyMatch_tail_chars snapShape_tail_chars snapShape_ne_nil hX c hmemtail
      rcases hcIS with rfl | rfl
      exacts [hcs.1 rfl, hcs.2 rfl]
  · intro s s' hs hs' hmap
    rw [matchedName_iff] at hs hs'
    apply toList_inj
    rcases hs with h | h <;> rcases hs' with h' | h'
    · exact pyMatch_case_unique waShape_no_newline waShape_case_unique h h' hmap
    · exfalso
      have h1 := pyMatch_map_head_wa h
      have h2 := pyMatch_map_head_snap h'
      rw [hmap, h2] at h1
      exact absurd (Option.some.inj h1) (by decide)
    · exfalso
      have h1 := pyMatch_map_head_snap h
      have h2 := pyMatch_map_head_wa h'
      rw [hmap, h2] at h1
      exact absurd (Option.some.inj h1) (by decide)
    · exact pyMatch_case_unique snapShape_no_newline snapShape_case_unique h h' hmap

/-- Witness for C4: the amended theorem applied at concrete inputs. -/
theorem C4_classifier_anchoring_witness :
    is_snapchat_file "IMG-20230815-WA0001.jpg" = false ∧
    matchedName "img-20230815-wa0001.jpg" = false :=
  ⟨C4_classifier_anchoring.1 "IMG-20230815-WA0001.jpg" (by decide),
   by
    by_contra hB
    rw [Bool.not_eq_false] at hB
    have := C4_classifier_anchoring.2.2.2 "IMG-20230815-WA0001.jpg"
      "img-20230815-wa0001.jpg" (by decide) hB (by decide)
    exact absurd this (by decide)⟩

/-! ### Behaviour of the image patcher -/

lemma hasTag_setTag_self (l : List (Nat × String)) (t : Nat) (v : String) :
    hasTag (setTag l t v) t = true := by
  induction l with
  | nil => simp [setTag, hasTag]
  | cons p rest ih =>
    obtain ⟨t', v'⟩ := p
    by_cases h : t' = t
    · simp [setTag, h, hasTag]
    · simp only [setTag, if_neg h, hasTag, List.any_cons]
      rw [hasTag] at ih
      simp [ih]

lemma hasTag_setTag_ne (l : List (Nat × String)) {t t' : Nat} (v : String)
    (h : t' ≠ t) : hasTag (setTag l t v) t' = hasTag l t' := by
  induction l with
  | nil => simp [setTag, hasTag, Ne.symm h]
  | cons p rest ih =>
    obtain ⟨a, b⟩ := p
    by_cases ha : a = t
    · subst ha
      simp [setTag, hasTag, Ne.symm h]
    · simp only [setTag, if_neg ha, hasTag, List.any_cons] at *
      rw [ih]

/-- The stamped dictionary always carries the capture-date tag. -/
lemma hasTag_stampExif (ed : ExifDict) (fd : String) :
    hasTag (stampExif ed fd).exifIFD DateTimeOriginalTag = true := by
  unfold stampExif
  rw [hasTag_setTag_ne _ _ (by decide), hasTag_setTag_self]

/-- The CLI variant's patcher is the interactive one called with no date. -/
lemma WAU_update_eq (env : PatchEnv) (f : ImageFile) (filename : String) :
    WAU.update_image_metadata env f filename = update_image_metadata env f filename none := by
  unfold WAU.update_image_metadata update_image_metadata
  rw [show resolveDate filename none = extract_date_from_whatsapp_filename filename from rfl]

/-- On a file that already carries a capture date, the patcher returns
`'exists'` without touching anything. -/
lemma update_exists_of_hasCaptureDate (env : PatchEnv) (f : ImageFile)
    (filename : String) (date : Option Date) (h : hasCaptureDate f = true) :
    update_image_metadata env f filename date = (.metadataExists, f, []) := by
  obtain ⟨content⟩ := f
  cases content with
  | none => simp [hasCaptureDate] at h
  | some img =>
    obtain ⟨exif, px⟩ := img
    cases exif with
    | none => simp [hasCaptureDate] at h
    | some e =>
      rw [hasCaptureDate] at h
      simp only at h
      unfold update_image_metadata
      simp [h]

/-- A `'failed'` outcome never leaves a capture date behind. -/
lemma update_failed_no_capture (env : PatchEnv) (f : ImageFile)
    (filename : String) (date : Option Date)
    (h : (update_image_metadata env f filename date).1 = .failed) :
    hasCaptureDate (update_image_metadata env f filename date).2.1 = false := by
  obtain ⟨content⟩ := f
  cases content with
  | none => rfl
  | some img =>
    obtain ⟨exif, px⟩ := img
    cases exif with
    | some e =>
      cases htag : hasTag e.exifIFD DateTimeOriginalTag with
      | true =>
        rw [update_exists_of_hasCaptureDate env _ filename date
          (by rw [hasCaptureDate]; simp only; exact htag)] at h
        simp at h
      | false =>
        unfold update_image_metadata at h ⊢
        simp only [htag] at h ⊢
        cases hd : resolveDate filename date with
        | none => simp [hd, hasCaptureDate, htag]
        | some d =>
          cases hdump : env.dumpOk with
          | false => simp [hd, hdump, hasCaptureDate, htag]
          | true =>
            cases hsave : env.save with
            | ok => simp [hd, hdump, hsave] at h
            | failsKeep => simp [hd, hdump, hsave, hasCaptureDate, htag]
            | failsTruncate => simp [hd, hdump, hsave, hasCaptureDate]
    | none =>
      unfold update_image_metadata at h ⊢
      simp only at h ⊢
      cases hd : resolveDate filename date with
      | none => simp [hd, hasCaptureDate]
      | some d =>
        cases hdump : env.dumpOk with
        | false => simp [hd, hdump, hasCaptureDate]
        | true =>
          cases hsave : env.save with
          | ok => simp [hd, hdump, hsave] at h
          | failsKeep => simp [hd, hdump, hsave, hasCaptureDate]
          | failsTruncate => simp [hd, hdump, hsave, hasCaptureDate]

/-- C1: applying the image patcher twice to the same file yields `'updated'`
or `'exists'` on the first call, and the second call (in either source
variant) returns `'exists'`, performs no write, and leaves the metadata
byte-identical — for every image whose metadata block after the first call
contains the date-of-original-capture field. -/
theorem C1_image_patch_idempotent (env1 env2 : PatchEnv) (f : ImageFile)
    (filename : String) (date : Option Date)
    (h : hasCaptureDate (update_image_metadata env1 f filename date).2.1 = true) :
    ((update_image_metadata env1 f filename date).1 = .updated ∨
      (update_image_metadata env1 f filename date).1 = .metadataExists) ∧
    update_image_metadata env2 (update_image_metadata env1 f filename date).2.1
        filename date
      = (.metadataExists, (update_image_metadata env1 f filename date).2.1, []) ∧
    WAU.update_image_metadata env2 (update_image_metadata env1 f filename date).2.1
        filename
      = (.metadataExists, (update_image_metadata env1 f filename date).2.1, []) := by
  refine ⟨?_, update_exists_of_hasCaptureDate _ _ _ _ h, ?_⟩
  · cases hr : (update_image_metadata env1 f filename date).1 with
    | updated => exact Or.inl rfl
    | metadataExists => exact Or.inr rfl
    | failed =>
      have := update_failed_no_capture env1 f filename date hr
      rw [this] at h
      exact absurd h (by decide)
  · rw [WAU_update_eq]
    exact update_exists_of_hasCaptureDate _ _ _ _ h

/-- Failures hit before the save is attempted leave the file untouched and
write nothing. -/
lemma update_before_save (env : PatchEnv) (f : ImageFile) (filename : String)
    (date : Option Date)
    (h : env.dumpOk = false ∨ resolveDate filename date = none) :
    (update_image_metadata env f filename date).2.1 = f ∧
    (update_image_metadata env f filename date).2.2 = [] := by
  obtain ⟨content⟩ := f
  cases content with
  | none => exact ⟨rfl, rfl⟩
  | some img =>
    obtain ⟨exif, px⟩ := img
    unfold update_image_metadata
    cases exif with
    | some e =>
      cases htag : hasTag e.exifIFD DateTimeOriginalTag with
      | true => simp [htag]
      | false =>
        simp only [htag]
        rcases h with h | h
        · cases hd : resolveDate filename date with
          | none => simp [hd]
          | some d => simp [hd, h]
        · simp [h]
    | none =>
      simp only
      rcases h with h | h
      · cases hd : resolveDate filename date with
        | none => simp [hd]
        | some d => simp [hd, h]
      · simp [h]

/-- Any modelled failure of steps 3–5 is caught and reported as `'failed'`. -/
lemma update_failed_of (env : PatchEnv) (f : ImageFile) (filename : String)
    (date : Option Date) (hcap : hasCaptureDate f = false)
    (h : env.dumpOk = false ∨ env.save ≠ .ok ∨ resolveDate filename date = none) :
    (update_image_metadata env f filename date).1 = .failed := by
  obtain ⟨content⟩ := f
  cases content with
  | none => rfl
  | some img =>
    obtain ⟨exif, px⟩ := img
    unfold update_image_metadata
    cases exif with
    | some e =>
      cases htag : hasTag e.exifIFD DateTimeOriginalTag with
      | true =>
        rw [hasCaptureDate] at hcap
        simp only at hcap
        rw [htag] at hcap
        exact absurd hcap (by decide)
      | false =>
        simp only [htag]
        cases hd : resolveDate filename date with
        | none => simp [hd]
        | some d =>
          rcases h with h | h | h
          · simp [hd, h]
          · cases hdump : env.dumpOk with
            | false => simp [hd, hdump]
            | true =>
              cases hsave : env.save with
              | ok => exact absurd hsave h
              | failsKeep => simp [hd, hdump, hsave]
              | failsTruncate => simp [hd, hdump, hsave]
          · exact absurd hd (by rw [h]; intro he; exact Option.noConfusion he)
    | none =>
      simp only
      cases hd : resolveDate filename date with
      | none => simp [hd]
      | some d =>
        rcases h with h | h | h
        · simp [hd, h]
        · cases hdump : env.dumpOk with
          | false => simp [hd, hdump]
          | true =>
            cases hsave : env.save with
            | ok => exact absurd hsave h
            | failsKeep => simp [hd, hdump, hsave]
            | failsTruncate => simp [hd, hdump, hsave]
        · exact absurd hd (by rw [h]; intro he; exact Option.noConfusion he)

/-- The image patcher either writes nothing or performs the single in-place
write of the target path; it never touches a temporary path. -/
lemma update_trace_cases (env : PatchEnv) (f : ImageFile) (filename : String)
    (date : Option Date) :
    (update_image_metadata env f filename date).2.2 = [] ∨
    (update_image_metadata env f filename date).2.2 = [FsAction.openTargetWrite] := by
  obtain ⟨content⟩ := f
  cases content with
  | none => exact Or.inl rfl
  | some img =>
    obtain ⟨exif, px⟩ := img
    unfold update_image_metadata
    cases exif with
    | some e =>
      cases htag : hasTag e.exifIFD DateTimeOriginalTag with
      | true => simp [htag]
      | false =>
        simp only [htag]
        cases hd : resolveDate filename date with
        | none => simp [hd]
        | some d =>
          cases hdump : env.dumpOk with
          | false => simp [hd, hdump]
          | true =>
            cases hsave : env.save with
            | ok => simp [hd, hdump, hsave]
            | failsKeep => simp [hd, hdump, hsave]
            | failsTruncate => simp [hd, hdump, hsave]
    | none =>
      simp only
      cases hd : resolveDate filename date with
      | none => simp [hd]
      | some d =>
        cases hdump : env.dumpOk with
        | false => simp [hd, hdump]
        | true =>
          cases hsave : env.save with
          | ok => simp [hd, hdump, hsave]
          | failsKeep => simp [hd, hdump, hsave]
          | failsTruncate => simp [hd, hdump, hsave]

/-- C2 counterexample: the image save is a single in-place write of the
target path — there is no temporary-file write and no rename.  Moreover, a
save that fails mid-write leaves the target's bytes changed (the in-place
write truncates the file) even though `'failed'` is returned. -/
theorem C2_counterexample :
    (update_image_metadata ⟨true, .ok⟩ ⟨some ⟨none, 7⟩⟩
        "IMG-20230815-WA0001.jpg" none).2.2 = [FsAction.openTargetWrite] ∧
    FsAction.writeTemp ∉ (update_image_metadata ⟨true, .ok⟩ ⟨some ⟨none, 7⟩⟩
        "IMG-20230815-WA0001.jpg" none).2.2 ∧
    FsAction.replaceTempOntoTarget ∉ (update_image_metadata ⟨true, .ok⟩
        ⟨some ⟨none, 7⟩⟩ "IMG-20230815-WA0001.jpg" none).2.2 ∧
    (update_image_metadata ⟨true, .failsTruncate⟩ ⟨some ⟨none, 7⟩⟩
        "IMG-20230815-WA0001.jpg" none).1 = .failed ∧
    (update_image_metadata ⟨true, .failsTruncate⟩ ⟨some ⟨none, 7⟩⟩
        "IMG-20230815-WA0001.jpg" none).2.1 ≠ ⟨some ⟨none, 7⟩⟩ :=
  ⟨by decide, by decide, by decide, by decide, by decide⟩

/-- C2 (amended): every modelled failure during date resolution, metadata
encoding or saving is caught and `'failed'` is returned; a failure occurring
before the save is attempted leaves the file untouched with nothing written;
and the save never uses a temporary path or a rename — it writes the target
in place (so only a mid-save failure can alter the file).  The CLI variant's
patcher behaves identically. -/
theorem C2_failure_handling (env : PatchEnv) (f : ImageFile) (filename : String)
    (date : Option Date) :
    (hasCaptureDate f = false →
      (env.dumpOk = false ∨ env.save ≠ .ok ∨ resolveDate filename date = none) →
      (update_image_metadata env f filename date).1 = .failed) ∧
    ((env.dumpOk = false ∨ resolveDate filename date = none) →
      (update_image_metadata env f filename date).2.1 = f ∧
      (update_image_metadata env f filename date).2.2 = []) ∧
    FsAction.writeTemp ∉ (update_image_metadata env f filename date).2.2 ∧
    FsAction.replaceTempOntoTarget ∉ (update_image_metadata env f filename date).2.2 ∧
    WAU.update_image_metadata env f filename = update_image_metadata env f filename none := by
  refine ⟨update_failed_of env f filename date,
    update_before_save env f filename date, ?_, ?_, WAU_update_eq env f filename⟩
  · rcases update_trace_cases env f filename date with h | h <;> rw [h] <;> decide
  · rcases update_trace_cases env f filename date with h | h <;> rw [h] <;> decide

/-- Witness for C2 at a concrete file: a dump failure is caught, returns
`'failed'` and leaves the file untouched. -/
theorem C2_failure_handling_witness :
    (update_image_metadata ⟨false, .ok⟩ ⟨some ⟨none, 7⟩⟩
        "IMG-20230815-WA0001.jpg" none).1 = .failed ∧
    (update_image_metadata ⟨false, .ok⟩ ⟨some ⟨none, 7⟩⟩
        "IMG-20230815-WA0001.jpg" none).2.1 = ⟨some ⟨none, 7⟩⟩ :=
  ⟨(C2_failure_handling ⟨false, .ok⟩ ⟨some ⟨none, 7⟩⟩ "IMG-20230815-WA0001.jpg" none).1
      (by decide) (Or.inl rfl),
   ((C2_failure_handling ⟨false, .ok⟩ ⟨some ⟨none, 7⟩⟩ "IMG-20230815-WA0001.jpg" none).2.1
      (Or.inl rfl)).1⟩

/-- Witness for C1 at a concrete WhatsApp image with no prior metadata. -/
theorem C1_image_patch_idempotent_witness :
    ((update_image_metadata ⟨true, .ok⟩ ⟨some ⟨none, 7⟩⟩ "IMG-20230815-WA0001.jpg" none).1
        = .updated ∨
      (update_image_metadata ⟨true, .ok⟩ ⟨some ⟨none, 7⟩⟩ "IMG-20230815-WA0001.jpg" none).1
        = .metadataExists) ∧
    update_image_metadata ⟨false, .failsTruncate⟩
        (update_image_metadata ⟨true, .ok⟩ ⟨some ⟨none, 7⟩⟩
          "IMG-20230815-WA0001.jpg" none).2.1 "IMG-20230815-WA0001.jpg" none
      = (.metadataExists,
          (update_image_metadata ⟨true, .ok⟩ ⟨some ⟨none, 7⟩⟩
            "IMG-20230815-WA0001.jpg" none).2.1, []) ∧
    WAU.update_image_metadata ⟨false, .failsTruncate⟩
        (update_image_metadata ⟨true, .ok⟩ ⟨some ⟨none, 7⟩⟩
          "IMG-20230815-WA0001.jpg" none).2.1 "IMG-20230815-WA0001.jpg"
      = (.metadataExists,
          (update_image_metadata ⟨true, .ok⟩ ⟨some ⟨none, 7⟩⟩
            "IMG-20230815-WA0001.jpg" none).2.1, []) :=
  C1_image_patch_idempotent ⟨true, .ok⟩ ⟨false, .failsTruncate⟩ ⟨some ⟨none, 7⟩⟩
    "IMG-20230815-WA0001.jpg" none (by decide)

/-! ### Claim C5 -/

/-- C5: for every Variant-A filename the embedded date is obtained
deterministically by parsing characters 4–11 of the name as `YYYYMMDD`;
concretely, `IMG-20230815-WA0001.jpg` with no existing metadata resolves to
2023-08-15, the patch succeeds, and the capture-time field is written as the
byte string `2023:08:15 00:00:00`. -/
theorem C5_embedded_date :
    (∀ s : String, is_whatsapp_image s = true →
      extract_date_from_whatsapp_filename s = parseYYYYMMDD ((s.drop 4).take 8)) ∧
    extract_date_from_whatsapp_filename "IMG-20230815-WA0001.jpg"
      = some ⟨2023, 8, 15⟩ ∧
    (update_image_metadata ⟨true, .ok⟩ ⟨some ⟨none, 7⟩⟩
        "IMG-20230815-WA0001.jpg" none).1 = .updated ∧
    captureDateField (update_image_metadata ⟨true, .ok⟩ ⟨some ⟨none, 7⟩⟩
        "IMG-20230815-WA0001.jpg" none).2.1 = some "2023:08:15 00:00:00" :=
  ⟨fun _ _ => rfl, by decide, by decide, by decide⟩

/-- Witness for C5: the universal part applied at the example filename. -/
theorem C5_embedded_date_witness :
    extract_date_from_whatsapp_filename "IMG-20230815-WA0001.jpg"
      = parseYYYYMMDD (("IMG-20230815-WA0001.jpg".drop 4).take 8) :=
  C5_embedded_date.1 "IMG-20230815-WA0001.jpg" (by decide)

/-! ### Claim C6 -/

/-- C6 counterexample: `IMG-20230231-WA0001.jpg` is matched by the Variant-A
classifier and its embedded digits `20230231` (February 31st) are
unparseable, yet processing a file of that name that already carries a
capture-date field yields `'exists'`, not `'failed'` — the bad date is
silently ignored in that case. -/
theorem C6_counterexample :
    is_whatsapp_image "IMG-20230231-WA0001.jpg" = true ∧
    extract_date_from_whatsapp_filename "IMG-20230231-WA0001.jpg" = none ∧
    (update_image_metadata ⟨true, .ok⟩
        ⟨some ⟨some ⟨[(DateTimeOriginalTag, "2020:01:01 00:00:00")], [], [], [], none⟩, 7⟩⟩
        "IMG-20230231-WA0001.jpg" none).1 = .metadataExists ∧
    PatchResult.metadataExists ≠ PatchResult.failed :=
  ⟨by decide, by decide, by decide, by decide⟩

/-- C6 (amended): on a Variant-A filename whose embedded digits are not a
parseable date, the patcher (called as the WhatsApp walk calls it, with no
date argument) never writes anything and never reports `'updated'`: it
returns `'failed'`, except that a file already carrying a capture-date field
returns `'exists'` before the date is ever examined. -/
theorem C6_bad_embedded_date (env : PatchEnv) (f : ImageFile) (filename : String)
    (_hm : is_whatsapp_image filename = true)
    (hd : extract_date_from_whatsapp_filename filename = none) :
    ((update_image_metadata env f filename none).1 = .metadataExists ∨
      (update_image_metadata env f filename none).1 = .failed) ∧
    ((update_image_metadata env f filename none).1 = .metadataExists
      ↔ hasCaptureDate f = true) ∧
    (update_image_metadata env f filename none).2.1 = f ∧
    (update_image_metadata env f filename none).2.2 = [] := by
  have hr : resolveDate filename none = none := hd
  cases hcap : hasCaptureDate f with
  | true =>
    rw [update_exists_of_hasCaptureDate env f filename none hcap]
    exact ⟨Or.inl rfl, by simp, rfl, rfl⟩
  | false =>
    have hfail := update_failed_of env f filename none hcap
      (Or.inr (Or.inr hr))
    obtain ⟨hst, htr⟩ := update_before_save env f filename none (Or.inr hr)
    refine ⟨Or.inr hfail, ?_, hst, htr⟩
    rw [hfail]
    simp

/-- Witness for C6 at a readable metadata-free file named after February 31st. -/
theorem C6_bad_embedded_date_witness :
    ((update_image_metadata ⟨true, .ok⟩ ⟨some ⟨none, 7⟩⟩
        "IMG-20230231-WA0001.jpg" none).1 = .metadataExists ∨
      (update_image_metadata ⟨true, .ok⟩ ⟨some ⟨none, 7⟩⟩
        "IMG-20230231-WA0001.jpg" none).1 = .failed) ∧
    ((update_image_metadata ⟨true, .ok⟩ ⟨some ⟨none, 7⟩⟩
        "IMG-20230231-WA0001.jpg" none).1 = .metadataExists
      ↔ hasCaptureDate ⟨some ⟨none, 7⟩⟩ = true) ∧
    (update_image_metadata ⟨true, .ok⟩ ⟨some ⟨none, 7⟩⟩
        "IMG-20230231-WA0001.jpg" none).2.1 = (⟨some ⟨none, 7⟩⟩ : ImageFile) ∧
    (update_image_metadata ⟨true, .ok⟩ ⟨some ⟨none, 7⟩⟩
        "IMG-20230231-WA0001.jpg" none).2.2 = [] :=
  C6_bad_embedded_date ⟨true, .ok⟩ ⟨some ⟨none, 7⟩⟩ "IMG-20230231-WA0001.jpg"
    (by decide) (by decide)

/-! ### Claim C3 -/

/-- C3: when the remux subprocess exits non-zero, `update_video_metadata`
returns `'failed'`, the original file is byte-unchanged, and no temporary
file remains on disk afterwards; and on every path the remux writes only the
separate temp path — never the original file in place. -/
theorem C3_video_failure_atomic (env : RemuxEnv) (st : VideoFsState) (d : Date) :
    (env.exitCode ≠ 0 →
      (update_video_metadata env st d).1 = .failed ∧
      (update_video_metadata env st d).2.1.original = st.original ∧
      (update_video_metadata env st d).2.1.temp = none) ∧
    FsAction.openTargetWrite ∉ (update_video_metadata env st d).2.2 := by
  unfold update_video_metadata
  by_cases h0 : env.exitCode = 0
  · simp [h0]
  · cases hb : env.leavesBrokenTemp with
    | true => simp [h0, hb]
    | false => simp [h0, hb]

/-- Witness for C3: a non-zero exit that left a partial temp file behind. -/
theorem C3_video_failure_atomic_witness :
    ((update_video_metadata ⟨1, true, ⟨0, none⟩⟩ ⟨⟨5, none⟩, none⟩ ⟨2024, 1, 10⟩).1
        = .failed ∧
      (update_video_metadata ⟨1, true, ⟨0, none⟩⟩ ⟨⟨5, none⟩, none⟩
        ⟨2024, 1, 10⟩).2.1.original = (⟨5, none⟩ : VideoContent) ∧
      (update_video_metadata ⟨1, true, ⟨0, none⟩⟩ ⟨⟨5, none⟩, none⟩
        ⟨2024, 1, 10⟩).2.1.temp = none) ∧
    FsAction.openTargetWrite ∉ (update_video_metadata ⟨1, true, ⟨0, none⟩⟩
        ⟨⟨5, none⟩, none⟩ ⟨2024, 1, 10⟩).2.2 :=
  ⟨(C3_video_failure_atomic ⟨1, true, ⟨0, none⟩⟩ ⟨⟨5, none⟩, none⟩ ⟨2024, 1, 10⟩).1
      (by decide),
    (C3_video_failure_atomic ⟨1, true, ⟨0, none⟩⟩ ⟨⟨5, none⟩, none⟩ ⟨2024, 1, 10⟩).2⟩

/-! ### Claim C7 -/

/-- C7: `verify_backup` reports on a source file exactly when the destination
is missing, or the digests differ, or the sizes differ (the claim's identity
criterion); consequently a byte-identical backup produces no reports, and any
file missing or failing the digest-and-size criterion produces at least one
report. -/
theorem C7_verify_backup (hash : ByteSeq → Nat) (src : List SrcEntry)
    (backup : String → Option ByteSeq) :
    (∀ e ∈ src, (reportFor hash backup e).isSome ↔
      (backup e.rel = none ∨ ∃ c, backup e.rel = some c ∧
        (file_checksum hash c ≠ file_checksum hash e.content ∨
          c.length ≠ e.content.length))) ∧
    ((∀ e ∈ src, backup e.rel = some e.content) →
      verify_backup hash src backup = []) ∧
    (∀ e ∈ src, (backup e.rel = none ∨ ∃ c, backup e.rel = some c ∧
        (file_checksum hash c ≠ file_checksum hash e.content ∨
          c.length ≠ e.content.length)) →
      verify_backup hash src backup ≠ []) := by
  have hrep : ∀ e, (reportFor hash backup e).isSome ↔
      (backup e.rel = none ∨ ∃ c, backup e.rel = some c ∧
        (file_checksum hash c ≠ file_checksum hash e.content ∨
          c.length ≠ e.content.length)) := by
    intro e
    unfold reportFor
    cases hb : backup e.rel with
    | none => simp
    | some c =>
      by_cases hcond : file_checksum hash e.content ≠ file_checksum hash c
          ∨ e.content.length ≠ c.length
      · simp only [if_pos hcond]
        simp only [Option.isSome_some, true_iff]
        refine Or.inr ⟨c, rfl, ?_⟩
        rcases hcond with h | h
        · exact Or.inl (Ne.symm h)
        · exact Or.inr (Ne.symm h)
      · simp only [if_neg hcond]
        push_neg at hcond
        simp only [Option.isSome_none, Bool.false_eq_true, false_iff]
        rintro (h | ⟨c', hc', h⟩)
        · exact Option.noConfusion h
        · obtain rfl := Option.some.inj hc'
          rcases h with h | h
          · exact h hcond.1.symm
          · exact h hcond.2.symm
  refine ⟨fun e _ => hrep e, ?_, ?_⟩
  · intro hid
    rw [verify_backup, List.filterMap_eq_nil_iff]
    intro e he
    have h1 := (hrep e).not
    rw [Option.not_isSome_iff_eq_none] at h1
    apply h1.mpr
    rintro (h | ⟨c, hc, hdiff⟩)
    · rw [hid e he] at h; exact Option.noConfusion h
    · rw [hid e he] at hc
      obtain rfl := Option.some.inj hc
      rcases hdiff with h | h <;> exact h rfl
  · intro e he hbad hnil
    rw [verify_backup, List.filterMap_eq_nil_iff] at hnil
    have := hnil e he
    rw [← Option.not_isSome_iff_eq_none] at this
    exact this ((hrep e).mpr hbad)

/-! ### Behaviour of the walker of `WA_Snap_ExifUpdater.py` -/

lemma some_bindM {α β : Type} (a : α) (f : α → Option β) :
    ((some a : Option α) >>= f) = f a := rfl

lemma stepFile_unmatched (mode : Mode) (date : Option Date) (s : RunStats)
    (e : FileEntry) (h : isMatched mode e = false) :
    stepFile mode date s e = some { s with total_files := s.total_files + 1 } := by
  cases mode with
  | whatsapp => rw [isMatched] at h; simp [stepFile, h]
  | snapchat => rw [isMatched] at h; simp [stepFile, h]

lemma stepFile_matched (mode : Mode) (date : Option Date) (s : RunStats)
    (e : FileEntry) (h : isMatched mode e = true) :
    stepFile mode date s e
      = (matchedOutcome mode date e).map (tally (bump mode s)) := by
  cases mode with
  | whatsapp =>
    rw [isMatched] at h
    simp [stepFile, h, matchedOutcome, bump]
  | snapchat =>
    rw [isMatched] at h
    cases hs : snapResult date e with
    | none => simp [stepFile, h, hs, matchedOutcome, bump]
    | some r => simp [stepFile, h, hs, matchedOutcome, bump]

lemma tally_total (s : RunStats) (r : PatchResult) :
    (tally s r).total_files = s.total_files := by cases r <;> rfl

lemma tally_active (mode : Mode) (s : RunStats) (r : PatchResult) :
    activeCount mode (tally s r) = activeCount mode s := by
  cases mode <;> cases r <;> rfl

lemma tally_exists (s : RunStats) (r : PatchResult) :
    (tally s r).metadata_exists
      = s.metadata_exists + (if r = .metadataExists then 1 else 0) := by
  cases r <;> simp [tally]

lemma tally_updated (s : RunStats) (r : PatchResult) :
    (tally s r).metadata_updated
      = s.metadata_updated + (if r = .updated then 1 else 0) := by
  cases r <;> simp [tally]

lemma tally_failed (s : RunStats) (r : PatchResult) :
    (tally s r).update_failed
      = s.update_failed + (if r = .failed then 1 else 0) := by
  cases r <;> simp [tally]

lemma bump_total (mode : Mode) (s : RunStats) :
    (bump mode s).total_files = s.total_files + 1 := by cases mode <;> rfl

lemma bump_active (mode : Mode) (s : RunStats) :
    activeCount mode (bump mode s) = activeCount mode s + 1 := by
  cases mode <;> simp [bump, activeCount]

lemma bump_exists (mode : Mode) (s : RunStats) :
    (bump mode s).metadata_exists = s.metadata_exists := by cases mode <;> rfl

lemma bump_updated (mode : Mode) (s : RunStats) :
    (bump mode s).metadata_updated = s.metadata_updated := by cases mode <;> rfl

lemma bump_failed (mode : Mode) (s : RunStats) :
    (bump mode s).update_failed = s.update_failed := by cases mode <;> rfl

/-- Exact accounting of the walk: whenever the fold completes, the total
counter advanced by the number of files seen, the active matched counter by
the number of matched files, and each outcome counter by the number of
matched files with that patch outcome; moreover every matched file's dispatch
terminated (no uncaught exception). -/
lemma foldlM_stepFile_spec (mode : Mode) (date : Option Date) :
    ∀ (L : List FileEntry) (s0 s : RunStats),
      L.foldlM (stepFile mode date) s0 = some s →
      (∀ e ∈ L, isMatched mode e = true → (matchedOutcome mode date e).isSome = true) ∧
      s.total_files = s0.total_files + L.length ∧
      activeCount mode s = activeCount mode s0 + (L.filter (isMatched mode)).length ∧
      s.metadata_exists = s0.metadata_exists +
        ((L.filter (isMatched mode)).map (matchedOutcome mode date)).count
          (some .metadataExists) ∧
      s.metadata_updated = s0.metadata_updated +
        ((L.filter (isMatched mode)).map (matchedOutcome mode date)).count
          (some .updated) ∧
      s.update_failed = s0.update_failed +
        ((L.filter (isMatched mode)).map (matchedOutcome mode date)).count
          (some .failed) := by
  intro L
  induction L with
  | nil =>
    intro s0 s h
    rw [List.foldlM_nil] at h
    obtain rfl := Option.some.inj h
    simp
  | cons e L ih =>
    intro s0 s h
    rw [List.foldlM_cons] at h
    cases hm : isMatched mode e with
    | false =>
      rw [stepFile_unmatched mode date s0 e hm, some_bindM] at h
      obtain ⟨hall, ht, ha, hex, hup, hfl⟩ := ih _ s h
      refine ⟨?_, ?_, ?_, ?_, ?_, ?_⟩
      · intro e' he' hm'
        rcases List.mem_cons.mp he' with rfl | he'
        · rw [hm] at hm'; exact absurd hm' (by decide)
        · exact hall e' he' hm'
      · rw [ht]; simp; omega
      · rw [ha, List.filter_cons, if_neg (by rw [hm]; exact fun hc => Bool.noConfusion hc)]
        simp [activeCount]
      · rw [hex, List.filter_cons, if_neg (by rw [hm]; exact fun hc => Bool.noConfusion hc)]
      · rw [hup, List.filter_cons, if_neg (by rw [hm]; exact fun hc => Bool.noConfusion hc)]
      · rw [hfl, List.filter_cons, if_neg (by rw [hm]; exact fun hc => Bool.noConfusion hc)]
    | true =>
      rw [stepFile_matched mode date s0 e hm] at h
      cases ho : matchedOutcome mode date e with
      | none => rw [ho] at h; simp at h
      | some r =>
        rw [ho, Option.map_some', some_bindM] at h
        obtain ⟨hall, ht, ha, hex, hup, hfl⟩ := ih _ s h
        have hfc : (e :: L).filter (isMatched mode)
            = e :: L.filter (isMatched mode) := by
          rw [List.filter_cons, if_pos hm]
        refine ⟨?_, ?_, ?_, ?_, ?_, ?_⟩
        · intro e' he' hm'
          rcases List.mem_cons.mp he' with rfl | he'
          · rw [ho]; rfl
          · exact hall e' he' hm'
        · rw [ht, tally_total, bump_total]; simp; omega
        · rw [ha, tally_active, bump_active, hfc]; simp; omega
        · rw [hex, tally_exists, bump_exists, hfc, List.map_cons, ho, List.count_cons]
          cases r <;> simp <;> omega
        · rw [hup, tally_updated, bump_updated, hfc, List.map_cons, ho, List.count_cons]
          cases r <;> simp <;> omega
        · rw [hfl, tally_failed, bump_failed, hfc, List.map_cons, ho, List.count_cons]
          cases r <;> simp <;> omega

/-- When no matched file's dispatch raises, the walk completes. -/
lemma foldlM_stepFile_total (mode : Mode) (date : Option Date) :
    ∀ (L : List FileEntry) (s0 : RunStats),
      (∀ e ∈ L, isMatched mode e = true → (matchedOutcome mode date e).isSome = true) →
      ∃ s, L.foldlM (stepFile mode date) s0 = some s := by
  intro L
  induction L with
  | nil => intro s0 _; exact ⟨s0, rfl⟩
  | cons e L ih =>
    intro s0 hall
    rw [List.foldlM_cons]
    cases hm : isMatched mode e with
    | false =>
      rw [stepFile_unmatched mode date s0 e hm, some_bindM]
      exact ih _ (fun e' he' => hall e' (List.mem_cons_of_mem e he'))
    | true =>
      rw [stepFile_matched mode date s0 e hm]
      cases ho : matchedOutcome mode date e with
      | none =>
        have := hall e (List.mem_cons_self e L) hm
        rw [ho] at this
        exact absurd this (by decide)
      | some r =>
        rw [Option.map_some', some_bindM]
        exact ih _ (fun e' he' => hall e' (List.mem_cons_of_mem e he'))

/-- Every element of a list of defined outcomes is one of the three results,
so the three counts exhaust the list. -/
lemma count_outcomes (l : List (Option PatchResult))
    (h : ∀ o ∈ l, o.isSome = true) :
    l.count (some .metadataExists) + l.count (some .updated)
      + l.count (some .failed) = l.length := by
  induction l with
  | nil => rfl
  | cons o l ih =>
    have ho := h o (List.mem_cons_self o l)
    have ht := ih (fun o' ho' => h o' (List.mem_cons_of_mem o ho'))
    cases o with
    | none => exact absurd ho (by decide)
    | some r =>
      simp only [List.count_cons, List.length_cons]
      cases r <;> simp <;> omega

/-! ### Behaviour of the walker of `WhatsAppExifUpdater.py` -/

/-- A file the CLI variant routes to its patcher: it has an image extension
and matches the WhatsApp pattern. -/
def waProcessed (e : FileEntry) : Bool :=
  WAU.imageExt e.name && is_whatsapp_image e.name

/-- A file the CLI variant counts but skips. -/
def waSkipped (e : FileEntry) : Bool :=
  WAU.imageExt e.name && !is_whatsapp_image e.name

/-- The patch outcome the CLI variant obtains for a processed file. -/
def entryOutcomeWAU (e : FileEntry) : PatchResult :=
  (WAU.update_image_metadata e.imgEnv e.image e.name).1

/-- The counter increments the CLI variant performs before dispatch. -/
def bumpWAU (s : WAU.RunStats) : WAU.RunStats :=
  { s with
    total_images := s.total_images + 1
    whatsapp_images := s.whatsapp_images + 1 }

lemma WAU_stepFile_skip (s : WAU.RunStats) (e : FileEntry)
    (h : WAU.imageExt e.name = false) : WAU.stepFile s e = s := by
  simp [WAU.stepFile, h]

lemma WAU_stepFile_nonwa (s : WAU.RunStats) (e : FileEntry)
    (h1 : WAU.imageExt e.name = true) (h2 : is_whatsapp_image e.name = false) :
    WAU.stepFile s e = { s with
      total_images := s.total_images + 1
      non_whatsapp_images := s.non_whatsapp_images + 1 } := by
  simp [WAU.stepFile, h1, h2]

lemma WAU_stepFile_wa (s : WAU.RunStats) (e : FileEntry)
    (h1 : WAU.imageExt e.name = true) (h2 : is_whatsapp_image e.name = true) :
    WAU.stepFile s e = WAU.tally (bumpWAU s) (entryOutcomeWAU e) := by
  simp [WAU.stepFile, h1, h2, bumpWAU, entryOutcomeWAU]

lemma WAU_tally_exists (s : WAU.RunStats) (r : PatchResult) :
    (WAU.tally s r).metadata_exists
      = s.metadata_exists + (if r = .metadataExists then 1 else 0) := by
  cases r <;> simp [WAU.tally]

lemma WAU_tally_updated (s : WAU.RunStats) (r : PatchResult) :
    (WAU.tally s r).metadata_updated
      = s.metadata_updated + (if r = .updated then 1 else 0) := by
  cases r <;> simp [WAU.tally]

lemma WAU_tally_failed (s : WAU.RunStats) (r : PatchResult) :
    (WAU.tally s r).update_failed
      = s.update_failed + (if r = .failed then 1 else 0) := by
  cases r <;> simp [WAU.tally]

lemma WAU_tally_total (s : WAU.RunStats) (r : PatchResult) :
    (WAU.tally s r).total_images = s.total_images := by cases r <;> rfl

lemma WAU_tally_wa (s : WAU.RunStats) (r : PatchResult) :
    (WAU.tally s r).whatsapp_images = s.whatsapp_images := by cases r <;> rfl

lemma WAU_tally_nonwa (s : WAU.RunStats) (r : PatchResult) :
    (WAU.tally s r).non_whatsapp_images = s.non_whatsapp_images := by
  cases r <;> rfl

/-- Exact accounting of the CLI variant's walk. -/
lemma WAU_foldl_spec :
    ∀ (L : List FileEntry) (s0 : WAU.RunStats),
      (L.foldl WAU.stepFile s0).total_images
          = s0.total_images + (L.filter (fun e => WAU.imageExt e.name)).length ∧
      (L.foldl WAU.stepFile s0).whatsapp_images
          = s0.whatsapp_images + (L.filter waProcessed).length ∧
      (L.foldl WAU.stepFile s0).non_whatsapp_images
          = s0.non_whatsapp_images + (L.filter waSkipped).length ∧
      (L.foldl WAU.stepFile s0).metadata_exists
          = s0.metadata_exists
            + ((L.filter waProcessed).map entryOutcomeWAU).count .metadataExists ∧
      (L.foldl WAU.stepFile s0).metadata_updated
          = s0.metadata_updated
            + ((L.filter waProcessed).map entryOutcomeWAU).count .updated ∧
      (L.foldl WAU.stepFile s0).update_failed
          = s0.update_failed
            + ((L.filter waProcessed).map entryOutcomeWAU).count .failed := by
  intro L
  induction L with
  | nil => intro s0; simp
  | cons e L ih =>
    intro s0
    rw [List.foldl_cons]
    cases hi : WAU.imageExt e.name with
    | false =>
      rw [WAU_stepFile_skip s0 e hi]
      obtain ⟨h1, h2, h3, h4, h5, h6⟩ := ih s0
      have hp : waProcessed e = false := by simp [waProcessed, hi]
      have hs : waSkipped e = false := by simp [waSkipped, hi]
      refine ⟨?_, ?_, ?_, ?_, ?_, ?_⟩
      · rw [h1]; simp [List.filter_cons, hi]
      · rw [h2]; simp [List.filter_cons, hp]
      · rw [h3]; simp [List.filter_cons, hs]
      · rw [h4]; simp [List.filter_cons, hp]
      · rw [h5]; simp [List.filter_cons, hp]
      · rw [h6]; simp [List.filter_cons, hp]
    | true =>
      cases hw : is_whatsapp_image e.name with
      | false =>
        rw [WAU_stepFile_nonwa s0 e hi hw]
        obtain ⟨h1, h2, h3, h4, h5, h6⟩ :=
          ih { s0 with
            total_images := s0.total_images + 1
            non_whatsapp_images := s0.non_whatsapp_images + 1 }
        have hp : waProcessed e = false := by simp [waProcessed, hi, hw]
        have hs : waSkipped e = true := by simp [waSkipped, hi, hw]
        refine ⟨?_, ?_, ?_, ?_, ?_, ?_⟩
        · rw [h1]; simp [List.filter_cons, hi]; omega
        · rw [h2]; simp [List.filter_cons, hp]
        · rw [h3]; simp [List.filter_cons, hs]; omega
        · rw [h4]; simp [List.filter_cons, hp]
        · rw [h5]; simp [List.filter_cons, hp]
        · rw [h6]; simp [List.filter_cons, hp]
      | true =>
        rw [WAU_stepFile_wa s0 e hi hw]
        obtain ⟨h1, h2, h3, h4, h5, h6⟩ := ih (WAU.tally (bumpWAU s0) (entryOutcomeWAU e))
        have hp : waProcessed e = true := by simp [waProcessed, hi, hw]
        have hs : waSkipped e = false := by simp [waSkipped, hi, hw]
        refine ⟨?_, ?_, ?_, ?_, ?_, ?_⟩
        · rw [h1, WAU_tally_total]; simp [List.filter_cons, hi, bumpWAU]; omega
        · rw [h2, WAU_tally_wa]; simp [List.filter_cons, hp, bumpWAU]; omega
        · rw [h3, WAU_tally_nonwa]; simp [List.filter_cons, hs, bumpWAU]
        · rw [h4, WAU_tally_exists]
          simp [List.filter_cons, hp, bumpWAU, List.count_cons]
          cases entryOutcomeWAU e <;> simp <;> omega
        · rw [h5, WAU_tally_updated]
          simp [List.filter_cons, hp, bumpWAU, List.count_cons]
          cases entryOutcomeWAU e <;> simp <;> omega
        · rw [h6, WAU_tally_failed]
          simp [List.filter_cons, hp, bumpWAU, List.count_cons]
          cases entryOutcomeWAU e <;> simp <;> omega

/-- Every patch outcome is one of the three results. -/
lemma count_patch (l : List PatchResult) :
    l.count .metadataExists + l.count .updated + l.count .failed = l.length := by
  induction l with
  | nil => rfl
  | cons r l ih =>
    simp only [List.count_cons, List.length_cons]
    cases r <;> simp <;> omega

/-! ### Sample walk entries used by concrete witnesses -/

def plainVid : VideoFsState := ⟨⟨0, none⟩, none⟩

def plainVidEnv : RemuxEnv := ⟨0, false, ⟨0, none⟩⟩

/-- An entry whose patch environment is benign; only the name and the image
state vary. -/
def sampleEntry (n : String) (img : ImageFile) : FileEntry :=
  ⟨n, img, ⟨true, .ok⟩, plainVid, plainVidEnv⟩

/-- A file that already carries a capture date. -/
def imgWithDate : ImageFile :=
  ⟨some ⟨some ⟨[(DateTimeOriginalTag, "2020:01:01 00:00:00")], [], [], [], none⟩, 2⟩⟩

/-! ### Claim C8 -/

/-- C8: whenever every matched file's dispatch terminates and exactly one of
the matched files fails, the walk completes (returns a result), its failed
counter is exactly 1, its matched counter is the number of matched files, and
the other matched files are each tallied as `'exists'` or `'updated'`
(`ex + up = N - 1`). -/
theorem C8_failure_isolation (mode : Mode) (date : Option Date) (recursive : Bool)
    (tree : DirTree)
    (hall : ∀ o ∈ outcomes mode date recursive tree, o.isSome = true)
    (hone : (outcomes mode date recursive tree).count (some .failed) = 1) :
    ∃ t ex up,
      process_directory mode date recursive tree
        = some (t, (outcomes mode date recursive tree).length, ex, up, 1) ∧
      ex + up + 1 = (outcomes mode date recursive tree).length := by
  have hall' : ∀ e ∈ walked tree recursive, isMatched mode e = true →
      (matchedOutcome mode date e).isSome = true := by
    intro e he hm
    exact hall _ (List.mem_map_of_mem _ (List.mem_filter.mpr ⟨he, hm⟩))
  obtain ⟨s, hs⟩ := foldlM_stepFile_total mode date (walked tree recursive) initStats hall'
  obtain ⟨-, ht, ha, hex, hup, hfl⟩ := foldlM_stepFile_spec mode date _ _ _ hs
  have hainit : activeCount mode initStats = 0 := by cases mode <;> rfl
  have hact : activeCount mode s = (outcomes mode date recursive tree).length := by
    rw [ha, hainit]; simp [outcomes]
  have hexo : s.metadata_exists
      = (outcomes mode date recursive tree).count (some .metadataExists) := by
    rw [hex]; simp [initStats, outcomes]
  have hupo : s.metadata_updated
      = (outcomes mode date recursive tree).count (some .updated) := by
    rw [hup]; simp [initStats, outcomes]
  have hflo : s.update_failed
      = (outcomes mode date recursive tree).count (some .failed) := by
    rw [hfl]; simp [initStats, outcomes]
  have hfl1 : s.update_failed = 1 := by rw [hflo, hone]
  refine ⟨s.total_files, s.metadata_exists, s.metadata_updated, ?_, ?_⟩
  · unfold process_directory
    rw [hs]
    have hma : (if mode = Mode.whatsapp then s.whatsapp_images else s.snapchat_files)
        = activeCount mode s := rfl
    show some (s.total_files,
        (if mode = Mode.whatsapp then s.whatsapp_images else s.snapchat_files),
        s.metadata_exists, s.metadata_updated, s.update_failed) = _
    rw [hma, hact, hfl1]
  · have hcnt := count_outcomes (outcomes mode date recursive tree) hall
    rw [hexo, hupo]
    omega

/-- Witness for C8: three WhatsApp images, one of them unreadable. -/
theorem C8_failure_isolation_witness :
    ∃ t ex up,
      process_directory .whatsapp none false
          ⟨[sampleEntry "IMG-20230815-WA0001.jpg" ⟨some ⟨none, 1⟩⟩,
            sampleEntry "IMG-20230815-WA0002.jpg" imgWithDate,
            sampleEntry "IMG-20230815-WA0003.jpg" ⟨none⟩], []⟩
        = some (t,
            (outcomes .whatsapp none false
              ⟨[sampleEntry "IMG-20230815-WA0001.jpg" ⟨some ⟨none, 1⟩⟩,
                sampleEntry "IMG-20230815-WA0002.jpg" imgWithDate,
                sampleEntry "IMG-20230815-WA0003.jpg" ⟨none⟩], []⟩).length,
            ex, up, 1) ∧
      ex + up + 1
        = (outcomes .whatsapp none false
            ⟨[sampleEntry "IMG-20230815-WA0001.jpg" ⟨some ⟨none, 1⟩⟩,
              sampleEntry "IMG-20230815-WA0002.jpg" imgWithDate,
              sampleEntry "IMG-20230815-WA0003.jpg" ⟨none⟩], []⟩).length :=
  C8_failure_isolation .whatsapp none false
    ⟨[sampleEntry "IMG-20230815-WA0001.jpg" ⟨some ⟨none, 1⟩⟩,
      sampleEntry "IMG-20230815-WA0002.jpg" imgWithDate,
      sampleEntry "IMG-20230815-WA0003.jpg" ⟨none⟩], []⟩
    (by decide) (by decide)

/-! ### Claim C9 -/

/-- C9 counterexample: the claim says every file encountered increments the
total counter, in both source variants.  In the CLI variant
(`WhatsAppExifUpdater.py`) a walked file named `notes.txt` is not counted at
all: the walk sees one file but reports `total_images = 0`. -/
theorem C9_counterexample :
    (WAU.process_directory false ⟨[sampleEntry "notes.txt" ⟨none⟩], []⟩).1 = 0 ∧
    (walked ⟨[sampleEntry "notes.txt" ⟨none⟩], []⟩ false).length = 1 :=
  ⟨by decide, by decide⟩

/-- C9 (amended): in the interactive variant every walked file increments the
total counter (whenever the walk returns), and a file not matching the active
convention changes only the total counter and produces no error; in the CLI
variant only files with one of the image extensions are counted toward the
total — a file without one is skipped entirely, and an image-extension file
not matching the pattern increments only the total and the non-WhatsApp
counters. -/
theorem C9_total_counting :
    (∀ (mode : Mode) (date : Option Date) (recursive : Bool) (tree : DirTree)
        (t m ex up fl : Nat),
      process_directory mode date recursive tree = some (t, m, ex, up, fl) →
      t = (walked tree recursive).length) ∧
    (∀ (mode : Mode) (date : Option Date) (s : RunStats) (e : FileEntry),
      isMatched mode e = false →
      stepFile mode date s e = some { s with total_files := s.total_files + 1 }) ∧
    (∀ (recursive : Bool) (tree : DirTree),
      (WAU.process_directory recursive tree).1
        = ((walked tree recursive).filter (fun e => WAU.imageExt e.name)).length) ∧
    (∀ (s : WAU.RunStats) (e : FileEntry), WAU.imageExt e.name = false →
      WAU.stepFile s e = s) ∧
    (∀ (s : WAU.RunStats) (e : FileEntry), WAU.imageExt e.name = true →
      is_whatsapp_image e.name = false →
      WAU.stepFile s e = { s with
        total_images := s.total_images + 1
        non_whatsapp_images := s.non_whatsapp_images + 1 }) := by
  refine ⟨?_, stepFile_unmatched, ?_, WAU_stepFile_skip, WAU_stepFile_nonwa⟩
  · intro mode date recursive tree t m ex up fl h
    unfold process_directory at h
    cases hfold : (walked tree recursive).foldlM (stepFile mode date) initStats with
    | none => rw [hfold] at h; exact Option.noConfusion h
    | some s =>
      rw [hfold] at h
      have h' := Option.some.inj h
      simp only [Prod.mk.injEq] at h'
      obtain ⟨ht', -, -, -, -⟩ := h'
      obtain ⟨-, ht, -, -, -, -⟩ := foldlM_stepFile_spec mode date _ _ _ hfold
      rw [← ht', ht]
      simp [initStats]
  · intro recursive tree
    obtain ⟨h1, -, -, -, -, -⟩ := WAU_foldl_spec (walked tree recursive) WAU.initStats
    show ((walked tree recursive).foldl WAU.stepFile WAU.initStats).total_images = _
    rw [h1]
    simp [WAU.initStats]

/-- Witness for C9: the interactive variant counts the non-matching text file
toward its total. -/
theorem C9_total_counting_witness :
    (1 : Nat) = (walked ⟨[sampleEntry "notes.txt" ⟨none⟩], []⟩ false).length :=
  C9_total_counting.1 .whatsapp none false
    ⟨[sampleEntry "notes.txt" ⟨none⟩], []⟩ 1 0 0 0 0 (by decide)

/-! ### Claim C10 -/

/-- C10: whenever the walk returns, the matched-files counter equals the sum
of the `'exists'`, `'updated'` and `'failed'` counters, and is at most the
total counter — in both source variants. -/
theorem C10_counter_invariant :
    (∀ (mode : Mode) (date : Option Date) (recursive : Bool) (tree : DirTree)
        (t m ex up fl : Nat),
      process_directory mode date recursive tree = some (t, m, ex, up, fl) →
      m = ex + up + fl ∧ m ≤ t) ∧
    (∀ (recursive : Bool) (tree : DirTree) (t wa nonwa ex up fl : Nat),
      WAU.process_directory recursive tree = (t, wa, nonwa, ex, up, fl) →
      wa = ex + up + fl ∧ wa ≤ t) := by
  constructor
  · intro mode date recursive tree t m ex up fl h
    unfold process_directory at h
    cases hfold : (walked tree recursive).foldlM (stepFile mode date) initStats with
    | none => rw [hfold] at h; exact Option.noConfusion h
    | some s =>
      rw [hfold] at h
      have h' := Option.some.inj h
      simp only [Prod.mk.injEq] at h'
      obtain ⟨ht', hm', hex', hup', hfl'⟩ := h'
      obtain ⟨hall, ht, ha, hex, hup, hfl⟩ := foldlM_stepFile_spec mode date _ _ _ hfold
      have hallo : ∀ o ∈ ((walked tree recursive).filter (isMatched mode)).map
          (matchedOutcome mode date), o.isSome = true := by
        intro o ho
        obtain ⟨e, he, rfl⟩ := List.mem_map.mp ho
        exact hall e (List.mem_filter.mp he).1 (List.mem_filter.mp he).2
      have hcnt := count_outcomes _ hallo
      rw [List.length_map] at hcnt
      have hms : activeCount mode s = m := hm'
      have hainit : activeCount mode initStats = 0 := by cases mode <;> rfl
      constructor
      · rw [← hms, ← hex', ← hup', ← hfl', ha, hex, hup, hfl, hainit]
        have hze : initStats.metadata_exists = 0 := rfl
        have hzu : initStats.metadata_updated = 0 := rfl
        have hzf : initStats.update_failed = 0 := rfl
        rw [hze, hzu, hzf]
        omega
      · rw [← hms, ← ht', ha, ht, hainit]
        have hzt : initStats.total_files = 0 := rfl
        rw [hzt]
        have := List.length_filter_le (isMatched mode) (walked tree recursive)
        omega
  · intro recursive tree t wa nonwa ex up fl h
    unfold WAU.process_directory at h
    simp only [Prod.mk.injEq] at h
    obtain ⟨ht', hwa', -, hex', hup', hfl'⟩ := h
    obtain ⟨h1, h2, -, h4, h5, h6⟩ := WAU_foldl_spec (walked tree recursive) WAU.initStats
    have hcnt := count_patch (((walked tree recursive).filter waProcessed).map entryOutcomeWAU)
    rw [List.length_map] at hcnt
    constructor
    · rw [← hwa', ← hex', ← hup', ← hfl', h2, h4, h5, h6]
      have hz1 : WAU.initStats.whatsapp_images = 0 := rfl
      have hz2 : WAU.initStats.metadata_exists = 0 := rfl
      have hz3 : WAU.initStats.metadata_updated = 0 := rfl
      have hz4 : WAU.initStats.update_failed = 0 := rfl
      rw [hz1, hz2, hz3, hz4]
      omega
    · rw [← hwa', ← ht', h2, h1]
      have hz1 : WAU.initStats.whatsapp_images = 0 := rfl
      have hz5 : WAU.initStats.total_images = 0 := rfl
      rw [hz1, hz5]
      have hff : (walked tree recursive).filter waProcessed
          = ((walked tree recursive).filter (fun e => WAU.imageExt e.name)).filter
              (fun e => is_whatsapp_image e.name) := by
        rw [List.filter_filter]
        exact List.filter_congr fun e _ => by simp [waProcessed, Bool.and_comm]
      rw [hff]
      have := List.length_filter_le (fun e => is_whatsapp_image e.name)
        ((walked tree recursive).filter (fun e => WAU.imageExt e.name))
      omega

/-- Witness for C10 on a concrete mixed run. -/
theorem C10_counter_invariant_witness :
    (2 : Nat) = 1 + 1 + 0 ∧ (2 : Nat) ≤ 3 :=
  C10_counter_invariant.1 .whatsapp none false
    ⟨[sampleEntry "IMG-20230815-WA0001.jpg" ⟨some ⟨none, 1⟩⟩,
      sampleEntry "notes.txt" ⟨none⟩,
      sampleEntry "IMG-20230815-WA0002.jpg" imgWithDate], []⟩
    3 2 1 1 0 (by decide)

/-- Witness for C7: a two-file source where the backup of the second file is
truncated; a report is produced. -/
theorem C7_verify_backup_witness :
    verify_backup (fun l => l.sum) [⟨"a.jpg", [1, 2]⟩, ⟨"b.jpg", [3, 4]⟩]
      (fun r => if r = "a.jpg" then some [1, 2]
        else if r = "b.jpg" then some [3] else none) ≠ [] :=
  (C7_verify_backup (fun l => l.sum) [⟨"a.jpg", [1, 2]⟩, ⟨"b.jpg", [3, 4]⟩]
      (fun r => if r = "a.jpg" then some [1, 2]
        else if r = "b.jpg" then some [3] else none)).2.2
    ⟨"b.jpg", [3, 4]⟩ (by decide)
    (Or.inr ⟨[3], by decide, Or.inl (by decide)⟩)

end ImgMeta
